import Mathlib

/-!
Elys: margin collateral consolidation, leveragelp close, interest accrual, incentive params.

A shallow embedding of

* `x/margin/keeper/calc_mtp_consolidate_collateral.go` (`Keeper.CalcMTPConsolidateCollateral`),
* `x/leveragelp/keeper/msg_server_close.go` (`Keeper.Close`),
* `x/stablestake/keeper/begin_blocker.go` (`Keeper.BeginBlocker`),
* `x/incentive/keeper/params.go` (`GetPoolInfo`, `InitPoolMultiplier`, `UpdatePoolMultipliers`,
  `GetProperIncentiveParam`) and `x/incentive/keeper/keeper.go` (`CalculateProxyTVL`,
  `UpdateTokensCommitment`, `UpdateCommitments`, the commitment callback of
  `UpdateUncommittedTokens`),
* `x/incentive/client/cli/tx.go` (the argument parsing of `CmdUpdatePoolInfoProposal`),
* `app/wasm.go` (`CustomMessenger.DispatchMsg`),

together with the properties of these functions.

Conventions.  `sdk.Int` is a big signed integer and is embedded as `Int` (amounts stay far
inside its 256-bit range); `sdk.Uint` as `Nat`; `sdk.Dec` as an `Int` holding the value scaled
by `10^18`; `uint64` as a `Nat` below `2^64`, with conversions to `int64` written out.  A Go `error` is a `String`, and a
function returning `(T, error)` returns `Except Error T`.  Calls to collaborators whose bodies
are outside the embedded files are fields of a keeper record; every such call is recorded in a
call log, so that "is never called" and "is not evaluated" are statements about the log.  A
run-time panic, such as the one of `sdk.NewCoin` on a negative amount or an invalid
denomination, is an outcome of its own, not a returned error.
-/

namespace Elys

/-- Go `error` values. -/
abbrev Error := String

/-- The `sdk.Coin` record: a denomination and an `sdk.Int` amount. -/
structure Coin where
  Denom : String
  Amount : Int
deriving DecidableEq, Repr

namespace Margin

/-- The enum `Position` of `x/margin/types/types.pb.go`. -/
inductive Position where
  | UNSPECIFIED
  | LONG
  | SHORT
deriving DecidableEq, Repr

/-- The record `MTP`.  The fields up to `Id` are those of `x/margin/types/types.pb.go`;
`Collaterals` and `SumCollateral` are the two fields that `CalcMTPConsolidateCollateral`
reads and writes. -/
structure MTP where
  Address : String
  CollateralAsset : String
  CollateralAmount : Nat
  Liabilities : Nat
  InterestPaidCollateral : Nat
  InterestPaidCustody : Nat
  InterestUnpaidCollateral : Nat
  CustodyAsset : String
  CustodyAmount : Nat
  Leverage : Int
  MtpHealth : Int
  Position : Position
  Id : Nat
  Collaterals : List Coin
  SumCollateral : Int
deriving DecidableEq, Repr

/-- Modelled from the spec: the swap-estimation collaborators of the margin keeper, whose bodies
are not among the source files.  `PreparePools ctx denom` is `k.OpenChecker.PreparePools`
restricted to the two results the caller keeps (the AMM pool and the error).  Following the
external interface of the specification, `EstimateSwap ctx tokenIn tokenOutDenom pool` is
`estimateSwapExactIn(amountIn, route) -> amountOut | error` and
`EstimateSwapGivenOut ctx tokenOut tokenInDenom pool` is
`estimateSwapExactOut(amountOut, route) -> amountIn | error`.  The context is read, not
written, by these estimators. -/
structure Keeper (Ctx Pool : Type) where
  PreparePools : Ctx → String → Except Error Pool
  EstimateSwap : Ctx → Coin → String → Pool → Except Error Int
  EstimateSwapGivenOut : Ctx → Coin → String → Pool → Except Error Int

/-- One entry of the call log of `CalcMTPConsolidateCollateral`. -/
inductive Call (Pool : Type) where
  | PreparePools (denom : String)
  | EstimateSwap (tokenIn : Coin) (tokenOutDenom : String) (ammPool : Pool)
  | EstimateSwapGivenOut (tokenOut : Coin) (tokenInDenom : String) (ammPool : Pool)
deriving DecidableEq, Repr

/-- The characters that `sdk.ValidateDenom` allows after the first one: letters, digits and
`/`, `:`, `.`, `_`, `-`. -/
def validDenomChar (c : Char) : Bool :=
  c.isAlphanum || c == '/' || c == ':' || c == '.' || c == '_' || c == '-'

/-- `sdk.ValidateDenom`: the denomination matches `[a-zA-Z][a-zA-Z0-9/:._-]{2,127}`. -/
def ValidateDenom (denom : String) : Bool :=
  match denom.toList with
  | [] => false
  | c :: cs => c.isAlpha && decide (2 ≤ cs.length) && decide (cs.length ≤ 127)
      && cs.all validDenomChar

/-- `sdk.NewCoin`: the coin with the given denomination and amount when the denomination is
valid and the amount is not negative; otherwise the constructor panics, which is `none`. -/
def NewCoin (denom : String) (amount : Int) : Option Coin :=
  if ValidateDenom denom = true ∧ 0 ≤ amount then some ⟨denom, amount⟩ else none

/-- How the loop of `CalcMTPConsolidateCollateral` ends: with the total, with a returned error,
or in the panic of `sdk.NewCoin`. -/
inductive LoopResult where
  | ok (consolidateCollateral : Int)
  | error (err : Error)
  | panic
deriving DecidableEq, Repr

/-- The `for _, asset := range mtp.Collaterals` loop of `CalcMTPConsolidateCollateral`:
`acc` is `consolidateCollateral`, `log` the calls made so far.  An error leaves the loop at
once (`return err`), and so does the panic of `sdk.NewCoin`. -/
def consolidateLoop {Ctx Pool : Type} (k : Keeper Ctx Pool) (ctx : Ctx) (BaseCurrency : String) :
    List Coin → Int → List (Call Pool) → LoopResult × List (Call Pool)
  | [], acc, log => (.ok acc, log)
  | asset :: rest, acc, log =>
    if asset.Denom = BaseCurrency then
      consolidateLoop k ctx BaseCurrency rest (acc + asset.Amount) log
    else
      match k.PreparePools ctx asset.Denom with
      | .error err => (.error err, log ++ [Call.PreparePools asset.Denom])
      | .ok ammPool =>
        match NewCoin asset.Denom asset.Amount with
        | none => (.panic, log ++ [Call.PreparePools asset.Denom])
        | some collateralAmtIn =>
          match k.EstimateSwapGivenOut ctx collateralAmtIn BaseCurrency ammPool with
          | .error err =>
            (.error err, log ++ [Call.PreparePools asset.Denom,
              Call.EstimateSwapGivenOut collateralAmtIn BaseCurrency ammPool])
          | .ok C =>
            consolidateLoop k ctx BaseCurrency rest (acc + C)
              (log ++ [Call.PreparePools asset.Denom,
                Call.EstimateSwapGivenOut collateralAmtIn BaseCurrency ammPool])

/-- What a call of `CalcMTPConsolidateCollateral` leaves behind: the returned error (`none` is
`nil`), the MTP behind the pointer, the collaborator calls in the order they were made, and
whether the call ended in a panic instead of returning. -/
structure Outcome (Pool : Type) where
  err : Option Error
  mtp : MTP
  calls : List (Call Pool)
  panicked : Bool

/-- `Keeper.CalcMTPConsolidateCollateral(ctx, mtp)`; `BaseCurrency` is `ptypes.BaseCurrency`. -/
def CalcMTPConsolidateCollateral {Ctx Pool : Type} (k : Keeper Ctx Pool) (ctx : Ctx)
    (BaseCurrency : String) (mtp : MTP) : Outcome Pool :=
  match consolidateLoop k ctx BaseCurrency mtp.Collaterals 0 [] with
  | (.error err, calls) => ⟨some err, mtp, calls, false⟩
  | (.panic, calls) => ⟨none, mtp, calls, true⟩
  | (.ok consolidateCollateral, calls) =>
    ⟨none, { mtp with SumCollateral := consolidateCollateral }, calls, false⟩

/-- The value of one collateral entry in the base currency, as the specification gives it
(`valueOf(amount, fromAsset, toAsset)`): the amount itself for the base currency, otherwise the
swap estimate into the base currency, that is the estimated amount out for exactly the amount
of the entry in, against the pool prepared for the denomination of the entry. -/
def valueOf {Ctx Pool : Type} (k : Keeper Ctx Pool) (ctx : Ctx) (BaseCurrency : String)
    (asset : Coin) : Except Error Int :=
  if asset.Denom = BaseCurrency then .ok asset.Amount
  else
    match k.PreparePools ctx asset.Denom with
    | .error err => .error err
    | .ok ammPool => k.EstimateSwap ctx asset BaseCurrency ammPool

/-- The consolidation as the specification gives it: the sum of `valueOf` over the entries, in
order, failing with the first failure. -/
def consolidatedValue {Ctx Pool : Type} (k : Keeper Ctx Pool) (ctx : Ctx) (BaseCurrency : String) :
    List Coin → Except Error Int
  | [] => .ok 0
  | asset :: rest =>
    match valueOf k ctx BaseCurrency asset with
    | .error err => .error err
    | .ok v =>
      match consolidatedValue k ctx BaseCurrency rest with
      | .error err => .error err
      | .ok total => .ok (v + total)

/-- The body of the loop for one entry (lines 12 to 28 of the source): the amount it adds to
the total, the error it returns, or the panic of `sdk.NewCoin`. -/
def entryResult {Ctx Pool : Type} (k : Keeper Ctx Pool) (ctx : Ctx) (BaseCurrency : String)
    (asset : Coin) : LoopResult :=
  if asset.Denom = BaseCurrency then .ok asset.Amount
  else
    match k.PreparePools ctx asset.Denom with
    | .error err => .error err
    | .ok ammPool =>
      match NewCoin asset.Denom asset.Amount with
      | none => .panic
      | some collateralAmtIn =>
        match k.EstimateSwapGivenOut ctx collateralAmtIn BaseCurrency ammPool with
        | .error err => .error err
        | .ok C => .ok C

/-- The collaborator calls that the body of the loop makes for one entry. -/
def entryCalls {Ctx Pool : Type} (k : Keeper Ctx Pool) (ctx : Ctx) (BaseCurrency : String)
    (asset : Coin) : List (Call Pool) :=
  if asset.Denom = BaseCurrency then []
  else
    match k.PreparePools ctx asset.Denom with
    | .error _ => [Call.PreparePools asset.Denom]
    | .ok ammPool =>
      match NewCoin asset.Denom asset.Amount with
      | none => [Call.PreparePools asset.Denom]
      | some collateralAmtIn =>
        [Call.PreparePools asset.Denom,
          Call.EstimateSwapGivenOut collateralAmtIn BaseCurrency ammPool]

/-- The collaborator calls that the loop makes for a list of entries, one after the other. -/
def callsOf {Ctx Pool : Type} (k : Keeper Ctx Pool) (ctx : Ctx) (BaseCurrency : String) :
    List Coin → List (Call Pool)
  | [] => []
  | asset :: rest => entryCalls k ctx BaseCurrency asset ++ callsOf k ctx BaseCurrency rest

/-- An MTP with no collateral entries, used in the examples. -/
def emptyMTP : MTP :=
  { Address := "elys1owner", CollateralAsset := "uusdc", CollateralAmount := 0,
    Liabilities := 0, InterestPaidCollateral := 0, InterestPaidCustody := 0,
    InterestUnpaidCollateral := 0, CustodyAsset := "uatom", CustodyAmount := 0,
    Leverage := 0, MtpHealth := 0, Position := Position.LONG, Id := 1,
    Collaterals := [], SumCollateral := 7 }

/-- A keeper all of whose collaborators fail. -/
def failingKeeper : Keeper Unit Nat :=
  { PreparePools := fun _ _ => .error "pool not found"
    EstimateSwap := fun _ _ _ _ => .error "estimation failed"
    EstimateSwapGivenOut := fun _ _ _ _ => .error "estimation failed" }

/-- A constant-product pool without fees, holding `x` of the collateral denomination and `y` of
the base currency: swapping `a` of the collateral in gives `y * a / (x + a)` of the base
currency out, and getting `a` of the collateral out takes `y * a / (x - a)`, rounded up, of the
base currency in. -/
def sampleKeeper (x y : Int) : Keeper Unit Nat :=
  { PreparePools := fun _ denom => if denom = "uatom" then .ok 1 else .error "pool not found"
    EstimateSwap := fun _ tokenIn _ _ => .ok (y * tokenIn.Amount / (x + tokenIn.Amount))
    EstimateSwapGivenOut := fun _ tokenOut _ _ =>
      if tokenOut.Amount < x then
        .ok ((y * tokenOut.Amount + (x - tokenOut.Amount) - 1) / (x - tokenOut.Amount))
      else .error "insufficient liquidity" }

/-- The MTP of the C2 example: 1000 `uusdc`, 100 `uatom` and 5 `uusdc`. -/
def threeEntryMTP : MTP :=
  { emptyMTP with Collaterals := [⟨"uusdc", 1000⟩, ⟨"uatom", 100⟩, ⟨"uusdc", 5⟩] }

/-- The MTP of the C3 witness: 1000 `uusdc`, then 5 `uosmo`, for which there is no pool, then
100 `uatom`. -/
def missingPoolMTP : MTP :=
  { emptyMTP with Collaterals := [⟨"uusdc", 1000⟩, ⟨"uosmo", 5⟩, ⟨"uatom", 100⟩] }

/-- An MTP with 1000 `uusdc`, then 2000 `uatom`, more than the sample pool holds, then 5
`uusdc`. -/
def illiquidAtomMTP : MTP :=
  { emptyMTP with Collaterals := [⟨"uusdc", 1000⟩, ⟨"uatom", 2000⟩, ⟨"uusdc", 5⟩] }

/-- The MTP of the C4 counterexample: a single entry, zero `uatom`. -/
def zeroAtomMTP : MTP :=
  { emptyMTP with Collaterals := [⟨"uatom", 0⟩] }

/-- An MTP whose second entry is a negative amount of `uatom`, for which `sdk.NewCoin`
panics. -/
def negativeAtomMTP : MTP :=
  { emptyMTP with Collaterals := [⟨"uusdc", 1000⟩, ⟨"uatom", -5⟩, ⟨"uusdc", 5⟩] }

/-- The MTP of the C5 example: a single entry, 100 `uatom`. -/
def hundredAtomMTP : MTP :=
  { emptyMTP with Collaterals := [⟨"uatom", 100⟩] }

end Margin

namespace Leveragelp

/-- Modelled from the spec: the leveragelp position record, whose type declaration is not among
the source files.  It holds the fields that `Keeper.Close` reads (`Id`, `Address`, `Collateral`,
`Leverage`, `Liabilities`, `InterestPaid`, `PositionHealth`) and the pool reference of the
data model; the collateral is an asset with an amount. -/
structure Position where
  Address : String
  Collateral : Coin
  Liabilities : Int
  InterestPaid : Int
  Leverage : Int
  PositionHealth : Int
  Id : Nat
  AmmPoolId : Nat
deriving DecidableEq, Repr

/-- The message `MsgClose`: the creator and the `uint64` position id. -/
structure MsgClose where
  Creator : String
  Id : Nat
deriving DecidableEq, Repr

/-- The response `MsgCloseResponse`, as `Keeper.Close` builds it: `MsgCloseResponse{}`, with no
field set. -/
structure MsgCloseResponse where
deriving DecidableEq, Repr

/-- An event attribute, `sdk.NewAttribute(key, value)`. -/
structure Attribute where
  Key : String
  Value : String
deriving DecidableEq, Repr

/-- An event, `sdk.NewEvent(type, attributes...)`. -/
structure Event where
  Type_ : String
  Attributes : List Attribute
deriving DecidableEq, Repr

/-- `sdk.NewAttribute`. -/
def NewAttribute (key value : String) : Attribute := ⟨key, value⟩

/-- `sdk.NewEvent`. -/
def NewEvent (ty : String) (attrs : List Attribute) : Event := ⟨ty, attrs⟩

/-- The part of `sdk.Context` that closing a position works on: the keyed store of positions,
the events held by the event manager, and the remaining state of the chain. -/
structure Ctx (σ : Type) where
  positions : List Position
  events : List Event
  rest : σ

/-- `ctx.EventManager().EmitEvent(ev)`: the event is appended to the events of the context. -/
def EmitEvent {σ : Type} (ctx : Ctx σ) (ev : Event) : Ctx σ :=
  { ctx with events := ctx.events ++ [ev] }

/-- The error of a lookup that finds no position. -/
def ErrPositionNotFound : Error := "position not found"

/-- Modelled from the spec: `GetPosition(owner, id)`, the read query on the keyed store of
positions by `(owner, id)`, whose body is not among the source files.  It returns the stored
position, or fails with `PositionNotFound`; it does not write. -/
def GetPosition {σ : Type} (ctx : Ctx σ) (positionAddress : String) (id : Nat) :
    Except Error Position :=
  match ctx.positions.find? (fun p => decide (p.Address = positionAddress ∧ p.Id = id)) with
  | none => .error ErrPositionNotFound
  | some position => .ok position

/-- The three results of `CloseLong`: the pointer to the closed position (`none` is `nil`), the
repay amount and the error (`none` is `nil`). -/
structure CloseLongResult where
  closedPosition : Option Position
  repayAmount : Int
  err : Option Error
deriving DecidableEq, Repr

/-- The collaborator of `Keeper.Close` whose body is not among the source files: `CloseLong`,
which works on the context and returns its three results. -/
structure Keeper (σ : Type) where
  CloseLong : Ctx σ → MsgClose → CloseLongResult × Ctx σ

/-- Modelled from the spec: `CloseLong`, the NormalClose operation, whose body is not among the
source files.  It requires that the position exists and belongs to the caller, and fails with
`PositionNotFound`, reporting a repay amount of zero, if there is no such position; the steps
on an existing position (swap of the custody, repayment, removal from the store) are the
parameter `settle`. -/
def CloseLong {σ : Type} (settle : Ctx σ → Position → CloseLongResult × Ctx σ)
    (ctx : Ctx σ) (msg : MsgClose) : CloseLongResult × Ctx σ :=
  match GetPosition ctx msg.Creator msg.Id with
  | .error err => (⟨none, 0, some err⟩, ctx)
  | .ok position => settle ctx position

/-- The conversion `int64(x)` of a `uint64`: the value is read as a two-complement 64-bit
integer. -/
def toInt64 (x : Nat) : Int :=
  if x % 2 ^ 64 < 2 ^ 63 then ((x % 2 ^ 64 : Nat) : Int) else ((x % 2 ^ 64 : Nat) : Int) - 2 ^ 64

/-- `strconv.FormatInt(i, 10)`: the decimal rendering of a signed integer. -/
def FormatInt (i : Int) : String := toString i

/-- `sdk.Int.String()`: the decimal rendering. -/
def IntString (i : Int) : String := toString i

/-- `sdk.Coin.String()`: the amount followed by the denomination. -/
def CoinString (c : Coin) : String := toString c.Amount ++ c.Denom

/-- `sdk.Dec.String()` on a value scaled by `10^18`: sign, integer part, a dot and eighteen
decimals. -/
def DecString (d : Int) : String :=
  let frac := toString (d.natAbs % 10 ^ 18)
  (if d < 0 then "-" else "") ++ toString (d.natAbs / 10 ^ 18) ++ "."
    ++ String.mk (List.replicate (18 - frac.length) '0') ++ frac

/-- The event that `Keeper.Close` emits, from the position found by `GetPosition`, the closed
position returned by `CloseLong` and the repay amount. -/
def closeEvent (EventClose : String) (position closedPosition : Position) (repayAmount : Int) :
    Event :=
  NewEvent EventClose
    [ NewAttribute "id" (FormatInt (toInt64 closedPosition.Id)),
      NewAttribute "address" closedPosition.Address,
      NewAttribute "collateral" (CoinString closedPosition.Collateral),
      NewAttribute "repay_amount" (IntString repayAmount),
      NewAttribute "leverage" (DecString closedPosition.Leverage),
      NewAttribute "liabilities" (IntString closedPosition.Liabilities),
      NewAttribute "interest_paid" (IntString position.InterestPaid),
      NewAttribute "health" (DecString closedPosition.PositionHealth) ]

/-- What a call of `Keeper.Close` leaves behind: the response pointer and the error it returns,
whether it ended in a run-time panic instead of returning, the context, the events that `Close`
itself emitted and the number of times it called `CloseLong`. -/
structure CloseOutcome (σ : Type) where
  resp : Option MsgCloseResponse
  err : Option Error
  panicked : Bool
  ctx : Ctx σ
  emitted : List Event
  closeLongCalls : Nat

/-- `Keeper.Close(ctx, msg)`; `EventClose` is `types.EventClose`.  When `CloseLong` returns a nil
error with a nil position, reading `closedPosition.Id` panics. -/
def Close {σ : Type} (k : Keeper σ) (EventClose : String) (ctx : Ctx σ) (msg : MsgClose) :
    CloseOutcome σ :=
  match GetPosition ctx msg.Creator msg.Id with
  | .error err => ⟨none, some err, false, ctx, [], 0⟩
  | .ok position =>
    match k.CloseLong ctx msg with
    | (⟨_, _, some err⟩, ctx1) => ⟨none, some err, false, ctx1, [], 1⟩
    | (⟨none, _, none⟩, ctx1) => ⟨none, none, true, ctx1, [], 1⟩
    | (⟨some closedPosition, repayAmount, none⟩, ctx1) =>
      let ev := closeEvent EventClose position closedPosition repayAmount
      ⟨some {}, none, false, EmitEvent ctx1 ev, [ev], 1⟩

/-- The position of the examples: 1000 `uusdc` of collateral at leverage 5, liabilities 4000,
no interest paid yet, health 1.221. -/
def samplePosition : Position :=
  { Address := "elys1owner", Collateral := ⟨"uusdc", 1000⟩, Liabilities := 4000,
    InterestPaid := 0, Leverage := 5000000000000000000, PositionHealth := 1221000000000000000,
    Id := 1, AmmPoolId := 1 }

/-- A context whose store holds the given positions, with no event. -/
def storeOf (ps : List Position) : Ctx Unit := ⟨ps, [], ()⟩

/-- The steps of a close on an existing position, for the examples: the interest due `due` is
paid and recorded, the liabilities are repaid in full and the position is removed from the
store. -/
def sampleSettle (due : Int) (ctx : Ctx Unit) (position : Position) :
    CloseLongResult × Ctx Unit :=
  (⟨some { position with InterestPaid := position.InterestPaid + due }, position.Liabilities,
      none⟩,
    { ctx with
      positions := List.filter
        (fun p => !decide (p.Address = position.Address ∧ p.Id = position.Id)) ctx.positions })

/-- The keeper of the examples. -/
def closingKeeper (due : Int) : Keeper Unit := ⟨CloseLong (sampleSettle due)⟩

/-- A keeper whose `CloseLong` always fails with an error of its own, after touching the
context. -/
def rejectingKeeper : Keeper Unit :=
  ⟨fun ctx _ => (⟨none, 0, some "insufficient liquidity"⟩, { ctx with positions := [] })⟩

/-- The position of the C9 example: the sample position with the id `2^63`. -/
def largeIdPosition : Position := { samplePosition with Id := 2 ^ 63 }

/-- The position of the C11 example: position 2 of another owner, with other amounts. -/
def otherPosition : Position :=
  { Address := "elys1other", Collateral := ⟨"uusdc", 250⟩, Liabilities := 500,
    InterestPaid := 3, Leverage := 3000000000000000000, PositionHealth := 1400000000000000000,
    Id := 2, AmmPoolId := 1 }

/-- Modelled from the spec: the AMM collaborator as opening and force-closing a position use
it, whose body is not among the source files.  The pool it executes against has a state `π`
(its balances), which every executed swap changes.  `swapExactIn` routes an amount of the
borrowed asset into the custody asset (exact amount in) and gives the custody amount;
`liquidate` sells a custody amount at the current price of the pool and gives the proceeds in
the borrowed asset. -/
structure Amm (π : Type) where
  swapExactIn : π → Int → Except Error (Int × π)
  liquidate : π → Int → Except Error (Int × π)

/-- Modelled from the spec: the position record of the data model, as `OpenLong` creates it and
`ForceCloseLong` reads it.  The collateral is denominated in the borrowed asset; `leverage` is
a decimal scaled by `10^18`. -/
structure OpenedPosition where
  owner : String
  collateralAmount : Int
  custodyAmount : Int
  liabilities : Int
  leverage : Int
  interestPaid : Int
deriving DecidableEq, Repr

/-- Modelled from the spec: `OpenLong`, the steps of Open after its validation, whose body is
not among the source files; the test calls it directly, with a pool whose `LeverageMax` is
zero, so the validation against the pool is not part of it.  It borrows
`liabilities = collateral * (leverage - 1)`, routes the principal, collateral plus borrowed,
into the custody asset through the AMM, and initialises the interest paid with zero.  It
returns the position and the pool as the swap left it. -/
def OpenLong {π : Type} (amm : Amm π) (pool : π) (creator : String)
    (collateralAmount leverage : Int) : Except Error (OpenedPosition × π) :=
  let liabilities := collateralAmount * (leverage - 10 ^ 18) / 10 ^ 18
  match amm.swapExactIn pool (collateralAmount + liabilities) with
  | .error err => .error err
  | .ok (custodyAmount, pool1) =>
    .ok (⟨creator, collateralAmount, custodyAmount, liabilities, leverage, 0⟩, pool1)

/-- Modelled from the spec: `ForceCloseLong`, the liquidation step of ForceClose, whose body is
not among the source files; the test calls it directly on a position that was just opened, so
the health check of the solvency sweep is not part of it.  It liquidates the custody at the
current AMM price and returns `repayAmount = min(liabilities, proceedsFromLiquidation)`,
together with the pool as the liquidation left it. -/
def ForceCloseLong {π : Type} (amm : Amm π) (pool : π) (position : OpenedPosition) :
    Except Error (Int × π) :=
  match amm.liquidate pool position.custodyAmount with
  | .error err => .error err
  | .ok (proceeds, pool1) => .ok (min position.liabilities proceeds, pool1)

/-- The balances of a two-asset pool: of the borrowed asset and of the custody asset. -/
structure PoolBalances where
  borrowed : Int
  custody : Int
deriving DecidableEq, Repr

/-- A two-asset pool of equal weights without swap or exit fees, for the examples: a swap
moves along the curve on which the product of the balances is constant, the amount out being
rounded down, and nothing but the two swapped amounts changes the balances, so that the price
moves by the swaps only. -/
def feelessAmm : Amm PoolBalances :=
  { swapExactIn := fun pool p =>
      if 0 ≤ p ∧ 0 < pool.borrowed + p then
        .ok (pool.custody * p / (pool.borrowed + p),
          ⟨pool.borrowed + p, pool.custody - pool.custody * p / (pool.borrowed + p)⟩)
      else .error "invalid amount"
    liquidate := fun pool q =>
      if 0 ≤ q ∧ 0 < pool.custody + q then
        .ok (pool.borrowed * q / (pool.custody + q),
          ⟨pool.borrowed - pool.borrowed * q / (pool.custody + q), pool.custody + q⟩)
      else .error "invalid amount" }

/-- The pool of the repository test: 100000 of each asset. -/
def testPool : PoolBalances := ⟨100000, 100000⟩

end Leveragelp

namespace Stablestake

/-- The stablestake params record, whose type declaration is not among the source files:
`InterestRate` is the field that `BeginBlocker` writes, `rest` stands for the other fields. -/
structure Params (ρ : Type) where
  InterestRate : Int
  rest : ρ

/-- The keeper methods that `BeginBlocker` calls, whose bodies are not among the source files,
over a chain state `σ`.  The getters and the rate computation read the state; `SetParams` and
`UpdateInterestStacked` write it. -/
structure Keeper (σ ρ Debt : Type) where
  GetEpochLength : σ → Int
  GetEpochPosition : σ → Int → Int
  GetParams : σ → Params ρ
  InterestRateComputation : σ → Int
  SetParams : σ → Params ρ → σ
  AllDebts : σ → List Debt
  UpdateInterestStacked : σ → Debt → Debt × σ

/-- One entry of the call log of `BeginBlocker`. -/
inductive Call (ρ Debt : Type) where
  | GetEpochLength
  | GetEpochPosition (epochLength : Int)
  | GetParams
  | InterestRateComputation
  | SetParams (params : Params ρ)
  | AllDebts
  | UpdateInterestStacked (debt : Debt)

/-- The debts to which the log records a call of `UpdateInterestStacked`, in order. -/
def stackedDebts {ρ Debt : Type} : List (Call ρ Debt) → List Debt
  | [] => []
  | Call.UpdateInterestStacked debt :: rest => debt :: stackedDebts rest
  | _ :: rest => stackedDebts rest

/-- Whether a log entry is a call of `InterestRateComputation` or of `UpdateInterestStacked`. -/
def Call.isAccrual {ρ Debt : Type} : Call ρ Debt → Bool
  | Call.InterestRateComputation => true
  | Call.UpdateInterestStacked _ => true
  | _ => false

/-- The loop `for _, debt := range debts { k.UpdateInterestStacked(ctx, debt) }`: the returned
debt is dropped, the state is passed on. -/
def updateDebts {σ ρ Debt : Type} (k : Keeper σ ρ Debt) :
    List Debt → σ → List (Call ρ Debt) → σ × List (Call ρ Debt)
  | [], ctx, log => (ctx, log)
  | debt :: rest, ctx, log =>
    updateDebts k rest (k.UpdateInterestStacked ctx debt).2
      (log ++ [Call.UpdateInterestStacked debt])

/-- `Keeper.BeginBlocker(ctx)`: the state it leaves and the keeper calls it made. -/
def BeginBlocker {σ ρ Debt : Type} (k : Keeper σ ρ Debt) (ctx : σ) : σ × List (Call ρ Debt) :=
  let epochLength := k.GetEpochLength ctx
  let epochPosition := k.GetEpochPosition ctx epochLength
  if epochPosition = 0 then
    let params := k.GetParams ctx
    let rate := k.InterestRateComputation ctx
    let params := { params with InterestRate := rate }
    let ctx1 := k.SetParams ctx params
    let debts := k.AllDebts ctx1
    updateDebts k debts ctx1
      [Call.GetEpochLength, Call.GetEpochPosition epochLength, Call.GetParams,
        Call.InterestRateComputation, Call.SetParams params, Call.AllDebts]
  else
    (ctx, [Call.GetEpochLength, Call.GetEpochPosition epochLength])

/-- The chain state of the examples: the block height, the params and the debts, each an
address with the borrowed amount and the stacked interest. -/
structure SampleState where
  height : Int
  params : Params Unit
  debts : List (String × Int × Int)

/-- The keeper of the examples: epochs of ten blocks, a rate of 12 percent, and interest of
`borrowed * rate` stacked on the stored debt of the address. -/
def sampleKeeper : Keeper SampleState Unit (String × Int × Int) :=
  { GetEpochLength := fun _ => 10
    GetEpochPosition := fun s epochLength => s.height % epochLength
    GetParams := fun s => s.params
    InterestRateComputation := fun _ => 120000000000000000
    SetParams := fun s params => { s with params := params }
    AllDebts := fun s => s.debts
    UpdateInterestStacked := fun s debt =>
      (debt, { s with
        debts := List.map (fun d =>
          if d.1 = debt.1 then (d.1, d.2.1, d.2.2 + d.2.1 * s.params.InterestRate / 10 ^ 18)
          else d) s.debts }) }

/-- A state of the examples with two debts, at the given height. -/
def sampleState (height : Int) : SampleState :=
  ⟨height, ⟨0, ()⟩, [("elys1a", 4000, 0), ("elys1b", 1000, 0)]⟩

end Stablestake

namespace Incentive

/-- The record `PoolInfo` of the incentive params, with the fields that the keeper sets. -/
structure PoolInfo where
  PoolId : Nat
  RewardWallet : String
  Multiplier : Int
deriving DecidableEq, Repr

/-- The record `PoolMultipliers`: a pool id and the multiplier to give it. -/
structure PoolMultipliers where
  PoolId : Nat
  Multiplier : Int
deriving DecidableEq, Repr

/-- The record `IncentiveInfo`, with the fields that the keeper reads; `StartTime` is held as
its Unix time in seconds, `NumEpochs` and `CurrentEpoch` are `int64`. -/
structure IncentiveInfo where
  Amount : Int
  EpochIdentifier : String
  StartTime : Int
  NumEpochs : Int
  CurrentEpoch : Int
  EdenBoostApr : Int
deriving DecidableEq, Repr

/-- The incentive params, with the fields that the keeper reads: the incentive lists, the pool
infos and the three values read by key. -/
structure Params where
  LpIncentives : List IncentiveInfo
  StakeIncentives : List IncentiveInfo
  PoolInfos : List PoolInfo
  CommunityTax : Int
  WithdrawAddrEnabled : Bool
  RewardPortionForLps : Int
deriving DecidableEq, Repr

/-- The part of `sdk.Context` that the incentive params functions work on: the param store and
the block time (Unix seconds). -/
structure Ctx where
  params : Params
  blockTime : Int
deriving DecidableEq, Repr

/-- `Keeper.GetParams`: the stored params. -/
def GetParams (ctx : Ctx) : Params := ctx.params

/-- `Keeper.SetParams`: the params are stored. -/
def SetParams (ctx : Ctx) (params : Params) : Ctx := { ctx with params := params }

/-- The zero value `types.PoolInfo{}`. -/
def zeroPoolInfo : PoolInfo := ⟨0, "", 0⟩

/-- The zero value `types.IncentiveInfo{}`; the Unix time of the zero `time.Time` is
`-62135596800`. -/
def zeroIncentiveInfo : IncentiveInfo := ⟨0, "", -62135596800, 0, 0, 0⟩

/-- The loop of `GetPoolInfo` over the pool infos: the first one with the pool id. -/
def findPoolInfo : List PoolInfo → Nat → PoolInfo × Bool
  | [], _ => (zeroPoolInfo, false)
  | ps :: rest, poolId => if ps.PoolId = poolId then (ps, true) else findPoolInfo rest poolId

/-- `Keeper.GetPoolInfo(ctx, poolId)`. -/
def GetPoolInfo (ctx : Ctx) (poolId : Nat) : PoolInfo × Bool :=
  let params := GetParams ctx
  let poolInfos := params.PoolInfos
  findPoolInfo poolInfos poolId

/-- `Keeper.InitPoolMultiplier(ctx, poolId)`: the returned flag and the context it leaves;
`NewPoolRevenueAddress poolId` is `ammtypes.NewPoolRevenueAddress(poolId).String()`, and
`sdk.NewDec(1)` is `10^18`. -/
def InitPoolMultiplier (NewPoolRevenueAddress : Nat → String) (ctx : Ctx) (poolId : Nat) :
    Bool × Ctx :=
  let params := GetParams ctx
  let poolInfos := params.PoolInfos
  if poolInfos.any (fun ps => decide (ps.PoolId = poolId)) then (true, ctx)
  else
    let poolInfo : PoolInfo :=
      { PoolId := poolId, RewardWallet := NewPoolRevenueAddress poolId, Multiplier := 10 ^ 18 }
    (true, SetParams ctx { params with PoolInfos := params.PoolInfos ++ [poolInfo] })

/-- The inner loop of `UpdatePoolMultipliers` for one `pm`: every pool info with the pool id of
`pm` gets its multiplier. -/
def applyPoolMultiplier (pm : PoolMultipliers) (poolInfos : List PoolInfo) : List PoolInfo :=
  poolInfos.map (fun p => if p.PoolId = pm.PoolId then { p with Multiplier := pm.Multiplier }
    else p)

/-- `Keeper.UpdatePoolMultipliers(ctx, poolMultipliers)`: the returned flag and the context it
leaves. -/
def UpdatePoolMultipliers (ctx : Ctx) (poolMultipliers : List PoolMultipliers) : Bool × Ctx :=
  if poolMultipliers.length < 1 then (false, ctx)
  else
    let params := GetParams ctx
    let poolInfos :=
      poolMultipliers.foldl (fun infos pm => applyPoolMultiplier pm infos) params.PoolInfos
    (true, SetParams ctx { params with PoolInfos := poolInfos })

/-- The multiplier of the last entry of the list with the given pool id, if there is one. -/
def lastMultiplier : List PoolMultipliers → Nat → Option Int
  | [], _ => none
  | pm :: rest, poolId =>
    match lastMultiplier rest poolId with
    | some m => some m
    | none => if pm.PoolId = poolId then some pm.Multiplier else none

/-- A pool info after an update with the list, as a specification: the multiplier of the last
entry with its pool id if there is one, the pool info as it was otherwise. -/
def updatedPoolInfo (pms : List PoolMultipliers) (p : PoolInfo) : PoolInfo :=
  match lastMultiplier pms p.PoolId with
  | some m => { p with Multiplier := m }
  | none => p

/-- The value of an integer as an `int64`, wrapping around. -/
def wrapInt64 (x : Int) : Int := (x + 2 ^ 63) % 2 ^ 64 - 2 ^ 63

/-- What a call of `GetProperIncentiveParam` leaves behind: the three returned values, the
context after the deferred `SetParams`, and the value of the local variable `params` at the
return. -/
structure IncentiveOutcome where
  found : Bool
  stakeIncentive : IncentiveInfo
  lpIncentive : IncentiveInfo
  ctx : Ctx
  localParams : Params
deriving DecidableEq, Repr

/-- `Keeper.GetProperIncentiveParam(ctx, epochIdentifier)`.  The arguments of
`defer k.SetParams(ctx, params)` are evaluated at the `defer` statement, so the params stored
at the return are the params as read; `stakeIncentive` and `lpIncentive` are copies of the
first list elements; `foundIncentive` is initialised with `false` and not assigned again. -/
def GetProperIncentiveParam (ctx : Ctx) (epochIdentifier : String) : IncentiveOutcome :=
  let params := GetParams ctx
  let stored := SetParams ctx params
  match params.StakeIncentives, params.LpIncentives with
  | [], _ => ⟨false, zeroIncentiveInfo, zeroIncentiveInfo, stored, params⟩
  | _ :: _, [] => ⟨false, zeroIncentiveInfo, zeroIncentiveInfo, stored, params⟩
  | stakeIncentive0 :: _, lpIncentive0 :: _ =>
    let timestamp := ctx.blockTime
    let foundIncentive := false
    if stakeIncentive0.EpochIdentifier ≠ epochIdentifier ∨ timestamp < stakeIncentive0.StartTime
    then ⟨false, zeroIncentiveInfo, zeroIncentiveInfo, stored, params⟩
    else
      let stakeIncentive :=
        { stakeIncentive0 with CurrentEpoch := wrapInt64 (stakeIncentive0.CurrentEpoch + 1) }
      if stakeIncentive.CurrentEpoch = stakeIncentive.NumEpochs
          ∧ ¬ params.StakeIncentives.length > 1
      then ⟨false, zeroIncentiveInfo, zeroIncentiveInfo, stored, params⟩
      else
        let params1 :=
          if stakeIncentive.CurrentEpoch = stakeIncentive.NumEpochs
          then { params with StakeIncentives := params.StakeIncentives.drop 1 }
          else params
        let lpIncentive :=
          { lpIncentive0 with CurrentEpoch := wrapInt64 (lpIncentive0.CurrentEpoch + 1) }
        if lpIncentive.CurrentEpoch = lpIncentive.NumEpochs ∧ ¬ params1.LpIncentives.length > 1
        then ⟨false, zeroIncentiveInfo, zeroIncentiveInfo, stored, params1⟩
        else
          let params2 :=
            if lpIncentive.CurrentEpoch = lpIncentive.NumEpochs
            then { params1 with LpIncentives := params1.LpIncentives.drop 1 }
            else params1
          ⟨foundIncentive, stakeIncentive, lpIncentive, stored, params2⟩

/-- `chopPrecisionAndRound` of `sdk.Dec`: the eighteen last digits are dropped, rounding half
to even, on the absolute value. -/
def chopPrecisionAndRound (d : Int) : Int :=
  let quo := d.natAbs / 10 ^ 18
  let rem := d.natAbs % 10 ^ 18
  let rounded : Nat :=
    if rem = 0 then quo
    else if rem < 5 * 10 ^ 17 then quo
    else if rem > 5 * 10 ^ 17 then quo + 1
    else if quo % 2 = 0 then quo
    else quo + 1
  if d < 0 then -(rounded : Int) else (rounded : Int)

/-- `sdk.Dec.Mul` on values scaled by `10^18`. -/
def DecMul (a b : Int) : Int := chopPrecisionAndRound (a * b)

/-- The AMM collaborators of `CalculateProxyTVL`, whose bodies are not among the source files:
the liquidity pools in the order in which `IterateLiquidityPools` visits them, the pool id of a
pool, and `p.TVL(ctx, oracleKeeper)`. -/
structure Keeper (Pool : Type) where
  pools : Ctx → List Pool
  GetPoolId : Pool → Nat
  TVL : Ctx → Pool → Except Error Int

/-- Modelled from the spec: `iterateLiquidityPools(fn)` of the AMM collaborator, whose body is
not among the source files.  The callback is applied to the pools in order and works on the
variables it captures, here `acc`; the iteration stops when the callback returns `true`. -/
def IterateLiquidityPools {Pool α : Type} (fn : Pool → α → Bool × α) : List Pool → α → α
  | [], acc => acc
  | p :: rest, acc =>
    if (fn p acc).1 then (fn p acc).2 else IterateLiquidityPools fn rest (fn p acc).2

/-- `Keeper.CalculateProxyTVL(ctx)`; the accumulator is `multipliedShareSum`. -/
def CalculateProxyTVL {Pool : Type} (k : Keeper Pool) (ctx : Ctx) : Int :=
  IterateLiquidityPools
    (fun p multipliedShareSum =>
      match k.TVL ctx p with
      | .error _ => (false, multipliedShareSum)
      | .ok tvl =>
        match GetPoolInfo ctx (k.GetPoolId p) with
        | (_, false) => (false, multipliedShareSum)
        | (poolInfo, true) =>
          let proxyTVL := DecMul tvl poolInfo.Multiplier
          (false, multipliedShareSum + proxyTVL))
    (k.pools ctx) 0

/-- The share of one pool in the proxy TVL, as a specification: the TVL of the pool times the
multiplier of its pool info, and zero when the TVL cannot be computed or the pool has no pool
info. -/
def proxyShare {Pool : Type} (k : Keeper Pool) (ctx : Ctx) (p : Pool) : Int :=
  match k.TVL ctx p with
  | .error _ => 0
  | .ok tvl =>
    match GetPoolInfo ctx (k.GetPoolId p) with
    | (_, false) => 0
    | (poolInfo, true) => DecMul tvl poolInfo.Multiplier

/-- The params of the examples: no incentive, the given pool infos. -/
def paramsOf (poolInfos : List PoolInfo) : Params :=
  { LpIncentives := [], StakeIncentives := [], PoolInfos := poolInfos, CommunityTax := 0,
    WithdrawAddrEnabled := true, RewardPortionForLps := 650000000000000000 }

/-- Three pool infos with the multipliers 0.3, 0.5 and 1.0. -/
def threePoolInfos : List PoolInfo :=
  [⟨1, "wallet1", 300000000000000000⟩, ⟨2, "wallet2", 500000000000000000⟩,
    ⟨3, "wallet3", 1000000000000000000⟩]

/-- The keeper of the examples: a pool is its id with its TVL, or with no TVL when it cannot be
computed. -/
def sampleKeeper (pools : List (Nat × Option Int)) : Keeper (Nat × Option Int) :=
  { pools := fun _ => pools
    GetPoolId := fun p => p.1
    TVL := fun _ p => match p.2 with
      | some tvl => .ok tvl
      | none => .error "price not found" }

/-- The revenue address of a pool in the examples. -/
def sampleRevenueAddress (poolId : Nat) : String := "elys1revenue" ++ toString poolId

/-- An incentive of the examples: ten daily epochs from time 1000 on, none passed yet. -/
def dailyIncentive (amount : Int) : IncentiveInfo :=
  { Amount := amount, EpochIdentifier := "day", StartTime := 1000, NumEpochs := 10,
    CurrentEpoch := 0, EdenBoostApr := 100 }

/-- A context of the examples with one stake incentive and one LP incentive, at time 5000. -/
def incentiveCtx : Ctx :=
  ⟨{ paramsOf [] with
      StakeIncentives := [dailyIncentive 9000], LpIncentives := [dailyIncentive 7000] }, 5000⟩

end Incentive

namespace IncentiveCli

open Incentive

/-- `strings.Split(s, ",")` on the characters of `s`: the pieces between the commas, one more
than there are commas. -/
def splitComma : List Char → List (List Char)
  | [] => [[]]
  | c :: cs =>
    if c = ',' then [] :: splitComma cs
    else
      match splitComma cs with
      | [] => [[c]]
      | piece :: pieces => (c :: piece) :: pieces

/-- `strings.Split(s, listSeparator)`, the separator being the comma. -/
def Split (s : String) : List String := (splitComma s.toList).map String.mk

/-- The error `sdkerrors.Wrapf(sdkerrors.ErrInvalidType, "invalid parameter")`. -/
def errInvalidParameter : Error := "invalid parameter: invalid type"

/-- The loop `for i := range poolIds` of the command: the id and the multiplier at each
position are parsed, in this order, and the pair is appended; the first failure ends it.  The
two lists have the same length when the loop is entered. -/
def parseLoop (ParseUint : String → Except Error Nat) (NewDecFromStr : String → Except Error Int) :
    List String → List String → List PoolMultipliers → Except Error (List PoolMultipliers)
  | [], _, poolMultipliers => .ok poolMultipliers
  | id :: ids, multipliers, poolMultipliers =>
    match ParseUint id with
    | .error _ => .error errInvalidParameter
    | .ok poolId =>
      match multipliers with
      | [] => .error "index out of range"
      | m :: ms =>
        match NewDecFromStr m with
        | .error _ => .error errInvalidParameter
        | .ok multiplier =>
          parseLoop ParseUint NewDecFromStr ids ms (poolMultipliers ++ [⟨poolId, multiplier⟩])

/-- The argument parsing of `CmdUpdatePoolInfoProposal` (the lines from the two `strings.Split`
to the end of the loop): from the two arguments to the list of pool multipliers or the error.
`ParseUint s` is `strconv.ParseUint(s, 10, 64)` and `NewDecFromStr` is `sdk.NewDecFromStr`. -/
def parsePoolMultipliers (ParseUint : String → Except Error Nat)
    (NewDecFromStr : String → Except Error Int) (argPoolIds argMultipliers : String) :
    Except Error (List PoolMultipliers) :=
  let poolIds := Split argPoolIds
  let multipliers := Split argMultipliers
  if poolIds.length < 1 ∨ poolIds.length ≠ multipliers.length then .error errInvalidParameter
  else parseLoop ParseUint NewDecFromStr poolIds multipliers []

/-- The value of a string of decimal digits, after the value `acc` of the digits before it;
`none` when a character is not a decimal digit. -/
def parseDigits : List Char → Nat → Option Nat
  | [], acc => some acc
  | c :: cs, acc =>
    if '0' ≤ c ∧ c ≤ '9' then parseDigits cs (acc * 10 + (c.toNat - '0'.toNat)) else none

/-- `strconv.ParseUint(s, 10, 64)`: a non-empty string of decimal digits with a value below
`2^64`. -/
def ParseUint (s : String) : Except Error Nat :=
  if s.toList = [] then .error "invalid syntax"
  else
    match parseDigits s.toList 0 with
    | none => .error "invalid syntax"
    | some n => if n < 2 ^ 64 then .ok n else .error "value out of range"

/-- `big.Int.SetString(s, 10)`: an optional sign followed by at least one decimal digit. -/
def setString : List Char → Option Int
  | [] => none
  | c :: cs =>
    if c = '+' then (if cs = [] then none else (parseDigits cs 0).map Int.ofNat)
    else if c = '-' then (if cs = [] then none else (parseDigits cs 0).map (fun n => -Int.ofNat n))
    else (parseDigits (c :: cs) 0).map Int.ofNat

/-- The pieces of a list of characters between the dots. -/
def splitDot : List Char → List (List Char)
  | [] => [[]]
  | c :: cs =>
    if c = '.' then [] :: splitDot cs
    else
      match splitDot cs with
      | [] => [[c]]
      | piece :: pieces => (c :: piece) :: pieces

/-- `sdk.NewDecFromStr`: an optional minus sign, an integer part and, after a dot, at most
eighteen decimals; the result is the value scaled by `10^18`, of at most 315 bits. -/
def NewDecFromStr (str : String) : Except Error Int :=
  let neg := str.toList.head? = some '-'
  let cs := if neg then str.toList.drop 1 else str.toList
  if cs = [] then .error "decimal string cannot be empty"
  else
    match splitDot cs with
    | [intPart] =>
      match setString (intPart ++ List.replicate 18 '0') with
      | none => .error "failed to set decimal string"
      | some combined =>
        if combined.natAbs < 2 ^ 256 * 2 ^ 59 then .ok (if neg then -combined else combined)
        else .error "decimal out of range"
    | [intPart, fracPart] =>
      if fracPart.length = 0 ∨ intPart.length = 0 then .error "invalid decimal length"
      else if fracPart.length > 18 then .error "value exceeds max precision"
      else
        match setString (intPart ++ fracPart ++ List.replicate (18 - fracPart.length) '0') with
        | none => .error "failed to set decimal string"
        | some combined =>
          if combined.natAbs < 2 ^ 256 * 2 ^ 59 then .ok (if neg then -combined else combined)
          else .error "decimal out of range"
    | _ => .error "invalid decimal string"

end IncentiveCli

namespace Incentive

/-- A context of the examples with two stake incentives, the first of which has a single epoch
and so reaches its `NumEpochs` at the next call, and one LP incentive, at time 5000. -/
def finishingCtx : Ctx :=
  ⟨{ paramsOf [] with
      StakeIncentives := [{ dailyIncentive 9000 with NumEpochs := 1 }, dailyIncentive 8000],
      LpIncentives := [dailyIncentive 7000] }, 5000⟩

end Incentive

namespace Incentive

/-- An entry `UncommittedTokens` of a commitments record: a denomination and an amount. -/
structure UncommittedTokens where
  Denom : String
  Amount : Int
deriving DecidableEq, Repr

/-- An entry `CommittedTokens` of a commitments record: a denomination and an amount. -/
structure CommittedTokens where
  Denom : String
  Amount : Int
deriving DecidableEq, Repr

/-- The record `ctypes.Commitments`, with the fields that the incentive keeper reads and
writes; in the source the uncommitted tokens are a slice of pointers to entries. -/
structure Commitments where
  Creator : String
  CommittedTokens : List CommittedTokens
  UncommittedTokens : List UncommittedTokens
deriving DecidableEq, Repr

/-- The first entry with the denomination and its position in the list. -/
def findUncommitted : List UncommittedTokens → String → Option (Nat × UncommittedTokens)
  | [], _ => none
  | token :: rest, denom =>
    if token.Denom = denom then some (0, token)
    else (findUncommitted rest denom).map (fun r => (r.1 + 1, r.2))

/-- The method `GetUncommittedTokensForDenom` of the commitments record, whose body is not
among the source files: the pointer to the first entry with the denomination, here the entry
with its position, and `none` for `(nil, false)`. -/
def GetUncommittedTokensForDenom (commitments : Commitments) (denom : String) :
    Option (Nat × UncommittedTokens) :=
  findUncommitted commitments.UncommittedTokens denom

/-- The method `GetCommittedAmountForDenom` of the commitments record, whose body is not among
the source files: the amount of the first committed entry with the denomination, zero when
there is none. -/
def GetCommittedAmountForDenom (commitments : Commitments) (denom : String) : Int :=
  match commitments.CommittedTokens.find? (fun token => decide (token.Denom = denom)) with
  | some token => token.Amount
  | none => 0

/-- `Keeper.UpdateTokensCommitment(commitments, new_uncommitted_eden_tokens, denom)`: the record
behind the pointer after the call.  The write `uncommittedEden.Amount = ...` goes through the
pointer, so it changes the entry at its position in the list. -/
def UpdateTokensCommitment (commitments : Commitments) (new_uncommitted_eden_tokens : Int)
    (denom : String) : Commitments :=
  match GetUncommittedTokensForDenom commitments denom with
  | none =>
    let uncommittedTokens := commitments.UncommittedTokens
    let uncommittedTokens := uncommittedTokens ++ [⟨denom, new_uncommitted_eden_tokens⟩]
    { commitments with UncommittedTokens := uncommittedTokens }
  | some (i, uncommittedEden) =>
    { commitments with
      UncommittedTokens := commitments.UncommittedTokens.set i
        { uncommittedEden with
          Amount := uncommittedEden.Amount + new_uncommitted_eden_tokens } }

/-- The uncommitted amount of a denomination, as a specification: the amount of the entry that
`GetUncommittedTokensForDenom` finds, zero if there is no entry. -/
def uncommittedAmount (commitments : Commitments) (denom : String) : Int :=
  match GetUncommittedTokensForDenom commitments denom with
  | none => 0
  | some (_, token) => token.Amount

/-- The denominations `ptypes.Eden`, `ptypes.EdenB` and `ptypes.BaseCurrency`. -/
structure Denoms where
  Eden : String
  EdenB : String
  BaseCurrency : String

/-- The keeper methods that the commitment callback of `UpdateUncommittedTokens` calls, whose
bodies are not among the source files, over a chain state `σ`: the reward computations read
the state, `GiveCommissionToValidators` and `SetCommitments` write it; `validAddress creator`
says whether `sdk.AccAddressFromBech32(creator)` succeeds. -/
structure RewardKeeper (σ : Type) where
  validAddress : String → Bool
  CalculateDelegatedAmount : σ → String → Int
  CalculateRewardsForStakersByElysStaked : σ → Int → Int → Int → Int × Int × Int
  CalculateRewardsForStakersByCommitted : σ → Int → Int → Int → Int × Int
  CalculateRewardsForLPs : σ → Int → Commitments → Int → Int → Int × Int
  GiveCommissionToValidators : σ → String → Int → Int → Int → (Int × Int) × σ
  CalculateEdenBoostRewards : σ → Int → Commitments → String → Int → Int
  SetCommitments : σ → Commitments → σ

/-- The amounts that `UpdateUncommittedTokens` computes before it iterates the commitments. -/
structure EpochAmounts where
  edenAmountPerEpochStakers : Int
  edenAmountPerEpochLPs : Int
  dexRevenueStakersAmt : Int
  gasFeesLPsAmt : Int
  edenBoostAPR : Int
  totalProxyTVL : Int

/-- The four running totals that the commitment callback captures. -/
structure Totals where
  totalEdenGiven : Int
  totalEdenGivenLP : Int
  totalRewardsGiven : Int
  totalRewardsGivenLP : Int
deriving DecidableEq, Repr

/-- `Keeper.UpdateCommitments`: the three balances are updated and the record is saved. -/
def UpdateCommitments {σ : Type} (k : RewardKeeper σ) (d : Denoms) (ctx : σ)
    (commitments : Commitments)
    (newUncommittedEdenTokens newUncommittedEdenBoostTokens dexRewards : Int) : σ :=
  let commitments := UpdateTokensCommitment commitments newUncommittedEdenTokens d.Eden
  let commitments := UpdateTokensCommitment commitments newUncommittedEdenBoostTokens d.EdenB
  let commitments := UpdateTokensCommitment commitments dexRewards d.BaseCurrency
  k.SetCommitments ctx commitments

/-- The callback that `UpdateUncommittedTokens` passes to `IterateCommitments`, for one
commitments record: the totals and the state before and after.  The callback always returns
`false`, that is, the iteration goes on.  The variables `newUncommittedEdenTokens` and
`dexRewards` are assigned anew by each of the reward computations. -/
def commitmentCallback {σ : Type} (k : RewardKeeper σ) (d : Denoms) (epochIdentifier : String)
    (e : EpochAmounts) (commitments : Commitments) (st : Totals × σ) : Totals × σ :=
  let ctx := st.2
  let creator := commitments.Creator
  if k.validAddress creator = false then st
  else
    let delegatedAmt := k.CalculateDelegatedAmount ctx creator
    let r := k.CalculateRewardsForStakersByElysStaked ctx delegatedAmt
      e.edenAmountPerEpochStakers e.dexRevenueStakersAmt
    let newUncommittedEdenTokens := r.1
    let dexRewards := r.2.1
    let dexRewardsByStakers := r.2.2
    let totalEdenGiven := st.1.totalEdenGiven + newUncommittedEdenTokens
    let totalRewardsGiven := st.1.totalRewardsGiven + dexRewards
    let edenCommitted := GetCommittedAmountForDenom commitments d.Eden
    let r := k.CalculateRewardsForStakersByCommitted ctx edenCommitted
      e.edenAmountPerEpochStakers e.dexRevenueStakersAmt
    let newUncommittedEdenTokens := r.1
    let dexRewards := r.2
    let totalEdenGiven := totalEdenGiven + newUncommittedEdenTokens
    let totalRewardsGiven := totalRewardsGiven + dexRewards
    let edenBoostCommitted := GetCommittedAmountForDenom commitments d.EdenB
    let r := k.CalculateRewardsForStakersByCommitted ctx edenBoostCommitted
      e.edenAmountPerEpochStakers e.dexRevenueStakersAmt
    let newUncommittedEdenTokens := r.1
    let dexRewards := r.2
    let totalEdenGiven := totalEdenGiven + newUncommittedEdenTokens
    let totalRewardsGiven := totalRewardsGiven + dexRewards
    let r := k.CalculateRewardsForLPs ctx e.totalProxyTVL commitments
      e.edenAmountPerEpochLPs e.gasFeesLPsAmt
    let newUncommittedEdenTokensLp := r.1
    let dexRewardsLp := r.2
    let totalEdenGivenLP := st.1.totalEdenGivenLP + newUncommittedEdenTokensLp
    let totalRewardsGivenLP := st.1.totalRewardsGivenLP + dexRewardsLp
    let newUncommittedEdenTokens := newUncommittedEdenTokens + newUncommittedEdenTokensLp
    let c := k.GiveCommissionToValidators ctx creator delegatedAmt newUncommittedEdenTokens
      dexRewardsByStakers
    let edenCommissionGiven := c.1.1
    let dexRewardsCommissionGiven := c.1.2
    let ctx := c.2
    let newUncommittedEdenTokens := newUncommittedEdenTokens - edenCommissionGiven
    let dexRewards := dexRewards + dexRewardsLp - dexRewardsCommissionGiven
    let newUncommittedEdenBoostTokens :=
      k.CalculateEdenBoostRewards ctx delegatedAmt commitments epochIdentifier e.edenBoostAPR
    let ctx := UpdateCommitments k d ctx commitments newUncommittedEdenTokens
      newUncommittedEdenBoostTokens dexRewards
    (⟨totalEdenGiven, totalEdenGivenLP, totalRewardsGiven, totalRewardsGivenLP⟩, ctx)

/-- The iteration `k.cmk.IterateCommitments(ctx, callback)` of `UpdateUncommittedTokens` over
the commitments records in the order they are visited, from zero totals. -/
def iterateCommitments {σ : Type} (k : RewardKeeper σ) (d : Denoms) (epochIdentifier : String)
    (e : EpochAmounts) (records : List Commitments) (ctx : σ) : Totals × σ :=
  records.foldl (fun st commitments => commitmentCallback k d epochIdentifier e commitments st)
    (⟨0, 0, 0, 0⟩, ctx)

/-- The amount of the coin `edenRemainedCoin` that `UpdateUncommittedTokens` adds to the
community pool: `edenRemained.Add(edenRemainedLP)`. -/
def edenRemainedAmount (e : EpochAmounts) (t : Totals) : Int :=
  let edenRemained := e.edenAmountPerEpochStakers - t.totalEdenGiven
  let edenRemainedLP := e.edenAmountPerEpochLPs - t.totalEdenGivenLP
  edenRemained + edenRemainedLP

/-- The denominations of the examples. -/
def sampleDenoms : Denoms := ⟨"ueden", "uedenb", "uusdc"⟩

/-- The keeper of the examples, on a store of commitments records: a reward of 100 Eden from
the Elys staked, a tenth of the committed amount from Eden and from Eden Boost committed, 20
Eden from the LP tokens, and a commission of 5 Eden to the validators. -/
def rewardKeeper : RewardKeeper (List Commitments) :=
  { validAddress := fun creator => !(creator == "elysvaloper1validator")
    CalculateDelegatedAmount := fun _ _ => 1000
    CalculateRewardsForStakersByElysStaked := fun _ _ _ _ => (100, 10, 10)
    CalculateRewardsForStakersByCommitted := fun _ committed _ _ => (committed / 10, 1)
    CalculateRewardsForLPs := fun _ _ _ _ _ => (20, 2)
    GiveCommissionToValidators := fun ctx _ _ _ _ => ((5, 1), ctx)
    CalculateEdenBoostRewards := fun _ _ _ _ _ => 3
    SetCommitments := fun ctx commitments =>
      List.map (fun c => if c.Creator = commitments.Creator then commitments else c) ctx }

/-- The amounts of the examples: 1000 Eden per epoch for the stakers, 500 for the LPs. -/
def sampleAmounts : EpochAmounts := ⟨1000, 500, 0, 0, 100, 0⟩

/-- The commitments record of the examples: 500 Eden and 300 Eden Boost committed, 7 Eden and
2 of the base currency uncommitted. -/
def ownerCommitments : Commitments :=
  { Creator := "elys1owner", CommittedTokens := [⟨"ueden", 500⟩, ⟨"uedenb", 300⟩],
    UncommittedTokens := [⟨"ueden", 7⟩, ⟨"uusdc", 2⟩] }

end Incentive

namespace Wasm

/-- A byte string, `[]byte` or `json.RawMessage`. -/
abbrev Bytes := List Nat

/-- The record `MsgSwapExactAmountIn` of `app/wasm.go`; a route is a pool id with the
denomination of the token out. -/
structure MsgSwapExactAmountIn where
  Sender : String
  Routes : List (Nat × String)
  TokenIn : Coin
  TokenOutMinAmount : Int
  MetaData : Option Bytes
deriving DecidableEq, Repr

/-- The record `MsgOpen` of `app/wasm.go`. -/
structure MsgOpen where
  Creator : String
  CollateralAsset : String
  CollateralAmount : Nat
  BorrowAsset : String
  Position : Margin.Position
  Leverage : Int
  TakeProfitPrice : Int
  MetaData : Option Bytes
deriving DecidableEq, Repr

/-- The record `MsgClose` of `app/wasm.go`; `Id` is an `int64`. -/
structure MsgClose where
  Creator : String
  Id : Int
  MetaData : Option Bytes
deriving DecidableEq, Repr

/-- The record `MsgStake` of `app/wasm.go`. -/
structure MsgStake where
  Address : String
  Amount : Int
  Asset : String
  ValidatorAddress : String
deriving DecidableEq, Repr

/-- The record `MsgUnstake` of `app/wasm.go`. -/
structure MsgUnstake where
  Address : String
  Amount : Int
  Asset : String
  ValidatorAddress : String
deriving DecidableEq, Repr

/-- The record `ElysMsg` of `app/wasm.go`: five pointers, `none` for `nil`. -/
structure ElysMsg where
  MsgSwapExactAmountIn : Option MsgSwapExactAmountIn
  MsgOpen : Option MsgOpen
  MsgClose : Option MsgClose
  MsgStake : Option MsgStake
  MsgUnstake : Option MsgUnstake
deriving DecidableEq, Repr

/-- The message `wasmvmtypes.CosmosMsg`: the `Custom` payload, `none` for `nil`, and the other
variants, which `DispatchMsg` does not read. -/
structure CosmosMsg (β : Type) where
  Custom : Option Bytes
  other : β

/-- The three results of a `DispatchMsg`: the events, the data and the error (`none` is `nil`;
a nil slice is the empty list). -/
structure DispatchResult where
  events : List Leveragelp.Event
  data : List Bytes
  err : Option Error
deriving DecidableEq, Repr

/-- The record `CustomMessenger` as `DispatchMsg` uses it, over a chain state `σ`: the wrapped
messenger, the five handler methods (which call the keepers) and `Unmarshal`, which is
`json.Unmarshal` into an `ElysMsg`. -/
structure CustomMessenger (σ β : Type) where
  wrapped : σ → String → String → CosmosMsg β → DispatchResult × σ
  Unmarshal : Bytes → Except Error ElysMsg
  msgSwapExactAmountIn : σ → String → MsgSwapExactAmountIn → DispatchResult × σ
  msgClose : σ → String → MsgClose → DispatchResult × σ
  msgOpen : σ → String → MsgOpen → DispatchResult × σ
  msgStake : σ → String → MsgStake → DispatchResult × σ
  msgUnstake : σ → String → MsgUnstake → DispatchResult × σ

/-- The callee of `DispatchMsg` that the call log records. -/
inductive Callee where
  | wrapped
  | msgSwapExactAmountIn
  | msgClose
  | msgOpen
  | msgStake
  | msgUnstake
deriving DecidableEq, Repr

/-- What a call of `DispatchMsg` leaves behind: the returned results, the state and the callees
it called. -/
structure DispatchOutcome (σ : Type) where
  result : DispatchResult
  ctx : σ
  calls : List Callee

/-- `errorsmod.Wrap(err, description)`. -/
def Wrap (err : Error) (description : String) : Error := description ++ ": " ++ err

/-- `CustomMessenger.DispatchMsg(ctx, contractAddr, contractIBCPortID, msg)`. -/
def DispatchMsg {σ β : Type} (m : CustomMessenger σ β) (ctx : σ) (contractAddr : String)
    (contractIBCPortID : String) (msg : CosmosMsg β) : DispatchOutcome σ :=
  let viaWrapped : DispatchOutcome σ :=
    ⟨(m.wrapped ctx contractAddr contractIBCPortID msg).1,
      (m.wrapped ctx contractAddr contractIBCPortID msg).2, [Callee.wrapped]⟩
  match msg.Custom with
  | none => viaWrapped
  | some custom =>
    match m.Unmarshal custom with
    | .error err => ⟨⟨[], [], some (Wrap err "elys msg")⟩, ctx, []⟩
    | .ok contractMsg =>
      match contractMsg.MsgSwapExactAmountIn with
      | some msgSwapExactAmountIn =>
        ⟨(m.msgSwapExactAmountIn ctx contractAddr msgSwapExactAmountIn).1,
          (m.msgSwapExactAmountIn ctx contractAddr msgSwapExactAmountIn).2,
          [Callee.msgSwapExactAmountIn]⟩
      | none =>
        match contractMsg.MsgClose with
        | some msgClose =>
          ⟨(m.msgClose ctx contractAddr msgClose).1, (m.msgClose ctx contractAddr msgClose).2,
            [Callee.msgClose]⟩
        | none =>
          match contractMsg.MsgOpen with
          | some msgOpen =>
            ⟨(m.msgOpen ctx contractAddr msgOpen).1, (m.msgOpen ctx contractAddr msgOpen).2,
              [Callee.msgOpen]⟩
          | none =>
            match contractMsg.MsgStake with
            | some msgStake =>
              ⟨(m.msgStake ctx contractAddr msgStake).1,
                (m.msgStake ctx contractAddr msgStake).2, [Callee.msgStake]⟩
            | none =>
              match contractMsg.MsgUnstake with
              | some msgUnstake =>
                ⟨(m.msgUnstake ctx contractAddr msgUnstake).1,
                  (m.msgUnstake ctx contractAddr msgUnstake).2, [Callee.msgUnstake]⟩
              | none => viaWrapped

/-- The `ElysMsg` with no variant set. -/
def emptyElysMsg : ElysMsg := ⟨none, none, none, none, none⟩

/-- The messenger of the examples, on a state that counts the dispatched messages: the wrapped
messenger answers with one byte, the handlers with another; the payload `[1]` decodes to a
message with no variant, `[2]` to a close message, everything else fails to decode. -/
def sampleMessenger : CustomMessenger Nat Unit :=
  { wrapped := fun n _ _ _ => (⟨[], [[0]], none⟩, n + 1)
    Unmarshal := fun raw =>
      if raw = [1] then .ok emptyElysMsg
      else if raw = [2] then .ok { emptyElysMsg with MsgClose := some ⟨"elys1owner", 1, none⟩ }
      else .error "invalid character"
    msgSwapExactAmountIn := fun n _ _ => (⟨[], [[10]], none⟩, n + 10)
    msgClose := fun n _ _ => (⟨[], [[20]], none⟩, n + 20)
    msgOpen := fun n _ _ => (⟨[], [[30]], none⟩, n + 30)
    msgStake := fun n _ _ => (⟨[], [[40]], none⟩, n + 40)
    msgUnstake := fun n _ _ => (⟨[], [[50]], none⟩, n + 50) }

end Wasm

/-! ## Lemmas on the consolidation loop -/

namespace Margin

variable {Ctx Pool : Type}

/-- The loop at its first entry does what the body of the loop gives for that entry. -/
theorem consolidateLoop_cons (k : Keeper Ctx Pool) (ctx : Ctx) (base : String)
    (asset : Coin) (rest : List Coin) (acc : Int) (log : List (Call Pool)) :
    consolidateLoop k ctx base (asset :: rest) acc log
      = match entryResult k ctx base asset with
        | .ok C =>
          consolidateLoop k ctx base rest (acc + C) (log ++ entryCalls k ctx base asset)
        | .error err => (.error err, log ++ entryCalls k ctx base asset)
        | .panic => (.panic, log ++ entryCalls k ctx base asset) := by
  rw [consolidateLoop]
  unfold entryResult entryCalls
  by_cases hb : asset.Denom = base
  · simp [hb]
  · simp only [hb, if_false]
    cases hp : k.PreparePools ctx asset.Denom with
    | error e => rfl
    | ok p =>
      simp only []
      cases hn : NewCoin asset.Denom asset.Amount with
      | none => rfl
      | some coin =>
        simp only []
        cases hq : k.EstimateSwapGivenOut ctx coin base p with
        | error e => rfl
        | ok C => rfl

/-- The loop over a prefix whose entries all add a value adds these values to the accumulator
and the calls to the log, and goes on with the rest. -/
theorem consolidateLoop_append (k : Keeper Ctx Pool) (ctx : Ctx) (base : String)
    (pre rest : List Coin) (vs : List Int)
    (h : List.Forall₂ (fun c v => entryResult k ctx base c = .ok v) pre vs)
    (acc : Int) (log : List (Call Pool)) :
    consolidateLoop k ctx base (pre ++ rest) acc log
      = consolidateLoop k ctx base rest (acc + vs.sum) (log ++ callsOf k ctx base pre) := by
  induction h generalizing acc log with
  | nil => simp [callsOf]
  | @cons c v cs vs hc _ ih =>
    simp only [List.cons_append, List.sum_cons]
    rw [consolidateLoop_cons, hc]
    simp only []
    rw [ih]
    simp [callsOf, add_assoc]

/-- The loop at an entry for which the body returns an error stops with that error, having made
the calls of that entry only. -/
theorem consolidateLoop_cons_error (k : Keeper Ctx Pool) (ctx : Ctx) (base : String)
    (c : Coin) (rest : List Coin) (e : Error) (hc : entryResult k ctx base c = .error e)
    (acc : Int) (log : List (Call Pool)) :
    consolidateLoop k ctx base (c :: rest) acc log
      = (.error e, log ++ entryCalls k ctx base c) := by
  rw [consolidateLoop_cons, hc]

/-- The loop at an entry for which `sdk.NewCoin` panics stops in that panic. -/
theorem consolidateLoop_cons_panic (k : Keeper Ctx Pool) (ctx : Ctx) (base : String)
    (c : Coin) (rest : List Coin) (hc : entryResult k ctx base c = .panic)
    (acc : Int) (log : List (Call Pool)) :
    consolidateLoop k ctx base (c :: rest) acc log
      = (.panic, log ++ entryCalls k ctx base c) := by
  rw [consolidateLoop_cons, hc]

/-- The loop over entries that all add a value returns the accumulator plus the sum of the
values. -/
theorem consolidateLoop_all_ok (k : Keeper Ctx Pool) (ctx : Ctx) (base : String)
    (cs : List Coin) (vs : List Int)
    (h : List.Forall₂ (fun c v => entryResult k ctx base c = .ok v) cs vs)
    (acc : Int) (log : List (Call Pool)) :
    consolidateLoop k ctx base cs acc log = (.ok (acc + vs.sum), log ++ callsOf k ctx base cs) := by
  have := consolidateLoop_append k ctx base cs [] vs h acc log
  simpa [consolidateLoop] using this

/-- The log that the loop returns starts with the log it was given. -/
theorem consolidateLoop_log (k : Keeper Ctx Pool) (ctx : Ctx) (base : String)
    (cs : List Coin) (acc : Int) (log : List (Call Pool)) :
    ∃ more, (consolidateLoop k ctx base cs acc log).2 = log ++ more := by
  induction cs generalizing acc log with
  | nil => exact ⟨[], by simp [consolidateLoop]⟩
  | cons c rest ih =>
    rw [consolidateLoop_cons]
    cases entryResult k ctx base c with
    | ok C =>
      obtain ⟨more, hmore⟩ := ih (acc + C) (log ++ entryCalls k ctx base c)
      exact ⟨entryCalls k ctx base c ++ more, by simp [hmore]⟩
    | error e => exact ⟨entryCalls k ctx base c, rfl⟩
    | panic => exact ⟨entryCalls k ctx base c, rfl⟩

/-- A zero amount of the base currency, anywhere in the list, does not change what the loop
returns. -/
theorem consolidateLoop_zero_base (k : Keeper Ctx Pool) (ctx : Ctx) (base : String)
    (pre post : List Coin) (acc : Int) (log : List (Call Pool)) :
    consolidateLoop k ctx base (pre ++ ⟨base, 0⟩ :: post) acc log
      = consolidateLoop k ctx base (pre ++ post) acc log := by
  induction pre generalizing acc log with
  | nil => simp [consolidateLoop]
  | cons c cs ih =>
    simp only [List.cons_append]
    rw [consolidateLoop_cons, consolidateLoop_cons]
    cases entryResult k ctx base c with
    | ok C => exact ih _ _
    | error e => rfl
    | panic => rfl

/-- The calls of a list of entries followed by more entries. -/
theorem callsOf_append (k : Keeper Ctx Pool) (ctx : Ctx) (base : String) (xs ys : List Coin) :
    callsOf k ctx base (xs ++ ys) = callsOf k ctx base xs ++ callsOf k ctx base ys := by
  induction xs with
  | nil => simp [callsOf]
  | cons c cs ih => simp [callsOf, ih]

/-- The body of the loop never logs a call of the exact-amount-in estimator. -/
theorem entryCalls_no_EstimateSwap (k : Keeper Ctx Pool) (ctx : Ctx) (base : String) (c : Coin)
    (tokenIn : Coin) (d : String) (p : Pool) :
    Call.EstimateSwap tokenIn d p ∉ entryCalls k ctx base c := by
  unfold entryCalls
  by_cases hb : c.Denom = base
  · simp [hb]
  · simp only [hb, if_false]
    cases hp : k.PreparePools ctx c.Denom with
    | error e => simp
    | ok q =>
      simp only []
      cases NewCoin c.Denom c.Amount <;> simp

/-- The loop never logs a call of the exact-amount-in estimator. -/
theorem callsOf_no_EstimateSwap (k : Keeper Ctx Pool) (ctx : Ctx) (base : String)
    (cs : List Coin) (tokenIn : Coin) (d : String) (p : Pool) :
    Call.EstimateSwap tokenIn d p ∉ callsOf k ctx base cs := by
  induction cs with
  | nil => simp [callsOf]
  | cons c cs ih =>
    simp only [callsOf, List.mem_append, not_or]
    exact ⟨entryCalls_no_EstimateSwap k ctx base c tokenIn d p, ih⟩

/-- The body of the loop returns an error exactly when, for an entry outside the base currency,
the pool preparation fails, or the pool is prepared, the coin is built and the swap estimation
fails. -/
theorem entryResult_error_iff (k : Keeper Ctx Pool) (ctx : Ctx) (base : String) (c : Coin)
    (e : Error) :
    entryResult k ctx base c = .error e ↔
      c.Denom ≠ base ∧
      (k.PreparePools ctx c.Denom = .error e ∨
        ∃ p coin, k.PreparePools ctx c.Denom = .ok p ∧ NewCoin c.Denom c.Amount = some coin ∧
          k.EstimateSwapGivenOut ctx coin base p = .error e) := by
  unfold entryResult
  by_cases hb : c.Denom = base
  · simp [hb]
  · simp only [hb, if_false, ne_eq, not_false_eq_true, true_and]
    cases hp : k.PreparePools ctx c.Denom with
    | error e1 => simp
    | ok p =>
      simp only []
      cases hn : NewCoin c.Denom c.Amount with
      | none => simp
      | some coin =>
        simp only []
        cases hq : k.EstimateSwapGivenOut ctx coin base p with
        | error e2 => simp [hq]
        | ok C => simp [hq]

/-- The coin that `sdk.NewCoin` builds from a valid denomination and a non-negative amount. -/
theorem NewCoin_of_valid (denom : String) (amount : Int) (hd : ValidateDenom denom = true)
    (ha : 0 ≤ amount) : NewCoin denom amount = some ⟨denom, amount⟩ := by
  simp [NewCoin, hd, ha]

/-- When every entry adds a value, `CalcMTPConsolidateCollateral` returns no error and sets
`SumCollateral` to the sum of the values that the loop adds. -/
theorem calc_sum_of_added_values (k : Keeper Ctx Pool) (ctx : Ctx) (base : String) (mtp : MTP)
    (vs : List Int)
    (h : List.Forall₂ (fun c v => entryResult k ctx base c = .ok v) mtp.Collaterals vs) :
    CalcMTPConsolidateCollateral k ctx base mtp
      = ⟨none, { mtp with SumCollateral := vs.sum }, callsOf k ctx base mtp.Collaterals,
          false⟩ := by
  have hl := consolidateLoop_all_ok k ctx base mtp.Collaterals vs h 0 []
  simp [CalcMTPConsolidateCollateral, hl]

/-- When an entry fails after entries that all add a value, `CalcMTPConsolidateCollateral`
returns the error, leaves the MTP as it was and has made the calls up to that entry. -/
theorem calc_of_first_error (k : Keeper Ctx Pool) (ctx : Ctx) (base : String) (mtp : MTP)
    (pre post : List Coin) (c : Coin) (vs : List Int) (e : Error)
    (h : mtp.Collaterals = pre ++ c :: post)
    (hpre : List.Forall₂ (fun c v => entryResult k ctx base c = .ok v) pre vs)
    (hc : entryResult k ctx base c = .error e) :
    CalcMTPConsolidateCollateral k ctx base mtp
      = ⟨some e, mtp, callsOf k ctx base pre ++ entryCalls k ctx base c, false⟩ := by
  have hl : consolidateLoop k ctx base mtp.Collaterals 0 []
      = (.error e, callsOf k ctx base pre ++ entryCalls k ctx base c) := by
    rw [h, consolidateLoop_append k ctx base pre (c :: post) vs hpre,
      consolidateLoop_cons_error k ctx base c post e hc]
    simp
  simp [CalcMTPConsolidateCollateral, hl]

/-- When `sdk.NewCoin` panics at an entry that follows entries which all add a value,
`CalcMTPConsolidateCollateral` ends in that panic: it returns nothing, leaves the MTP as it was
and has called no estimator for that entry. -/
theorem calc_of_first_panic (k : Keeper Ctx Pool) (ctx : Ctx) (base : String) (mtp : MTP)
    (pre post : List Coin) (c : Coin) (vs : List Int)
    (h : mtp.Collaterals = pre ++ c :: post)
    (hpre : List.Forall₂ (fun c v => entryResult k ctx base c = .ok v) pre vs)
    (hc : entryResult k ctx base c = .panic) :
    CalcMTPConsolidateCollateral k ctx base mtp
      = ⟨none, mtp, callsOf k ctx base pre ++ entryCalls k ctx base c, true⟩ := by
  have hl : consolidateLoop k ctx base mtp.Collaterals 0 []
      = (.panic, callsOf k ctx base pre ++ entryCalls k ctx base c) := by
    rw [h, consolidateLoop_append k ctx base pre (c :: post) vs hpre,
      consolidateLoop_cons_panic k ctx base c post hc]
    simp
  simp [CalcMTPConsolidateCollateral, hl]

end Margin

/-! ## Claims on `CalcMTPConsolidateCollateral` -/

namespace Margin

variable {Ctx Pool : Type}

/-- C1: identity case of consolidation.  For an MTP whose `Collaterals` holds exactly one
entry, in the base currency and of amount `a`, `CalcMTPConsolidateCollateral` returns no error,
sets `SumCollateral` to `a` (and changes nothing else), and calls neither the pool-preparation
nor a swap-estimation collaborator. -/
theorem calc_identity_case (k : Keeper Ctx Pool) (ctx : Ctx) (base : String) (mtp : MTP)
    (a : Int) (h : mtp.Collaterals = [⟨base, a⟩]) :
    (CalcMTPConsolidateCollateral k ctx base mtp).err = none ∧
    (CalcMTPConsolidateCollateral k ctx base mtp).mtp.SumCollateral = a ∧
    (CalcMTPConsolidateCollateral k ctx base mtp).mtp = { mtp with SumCollateral := a } ∧
    (CalcMTPConsolidateCollateral k ctx base mtp).calls = [] := by
  simp [CalcMTPConsolidateCollateral, consolidateLoop, h]

/-- Witness of C1: one entry of 1000 `uusdc`, with collaborators that would all fail. -/
theorem calc_identity_case_witness :
    ({ emptyMTP with Collaterals := [⟨"uusdc", 1000⟩] } : MTP).Collaterals = [⟨"uusdc", 1000⟩] ∧
    (CalcMTPConsolidateCollateral failingKeeper () "uusdc"
      { emptyMTP with Collaterals := [⟨"uusdc", 1000⟩] }).err = none ∧
    (CalcMTPConsolidateCollateral failingKeeper () "uusdc"
      { emptyMTP with Collaterals := [⟨"uusdc", 1000⟩] }).mtp.SumCollateral = 1000 ∧
    (CalcMTPConsolidateCollateral failingKeeper () "uusdc"
      { emptyMTP with Collaterals := [⟨"uusdc", 1000⟩] }).calls = [] :=
  have h := calc_identity_case failingKeeper () "uusdc"
    { emptyMTP with Collaterals := [⟨"uusdc", 1000⟩] } 1000 rfl
  ⟨rfl, h.1, h.2.1, h.2.2.2⟩

/-- C2 at a concrete input.  For the MTP holding 1000 `uusdc`, 100 `uatom` and 5 `uusdc`,
against the fee-less constant-product pool of 1000 `uatom` and 1000 `uusdc`, every valuation
succeeds and the values of the entries are 1000, 90 (the swap estimate of 100 `uatom` into the
base currency) and 5, whose sum is 1095; `CalcMTPConsolidateCollateral` returns no error but
sets `SumCollateral` to 1117, having added for the `uatom` entry the 112 that
`EstimateSwapGivenOut` gives with the collateral coin as the token out. -/
theorem calc_sum_is_not_sum_of_values :
    threeEntryMTP.Collaterals.map
        (fun c => (valueOf (sampleKeeper 1000 1000) () "uusdc" c).toOption)
      = [some 1000, some 90, some 5] ∧
    (consolidatedValue (sampleKeeper 1000 1000) () "uusdc" threeEntryMTP.Collaterals).toOption
      = some 1095 ∧
    (CalcMTPConsolidateCollateral (sampleKeeper 1000 1000) () "uusdc" threeEntryMTP).err = none ∧
    (CalcMTPConsolidateCollateral (sampleKeeper 1000 1000) () "uusdc"
      threeEntryMTP).panicked = false ∧
    (CalcMTPConsolidateCollateral (sampleKeeper 1000 1000) () "uusdc"
      threeEntryMTP).mtp.SumCollateral = 1117 ∧
    (CalcMTPConsolidateCollateral (sampleKeeper 1000 1000) () "uusdc" threeEntryMTP).calls
      = [Call.PreparePools "uatom", Call.EstimateSwapGivenOut ⟨"uatom", 100⟩ "uusdc" 1] :=
  ⟨rfl, rfl, rfl, rfl, rfl, rfl⟩

/-- The panic of `sdk.NewCoin` at a concrete input: with a negative amount of `uatom` after
1000 `uusdc`, the pool is prepared, the constructor panics, no estimator is called and the MTP
is left as it was. -/
theorem calc_negative_amount_panics :
    (CalcMTPConsolidateCollateral (sampleKeeper 1000 1000) () "uusdc"
      negativeAtomMTP).panicked = true ∧
    (CalcMTPConsolidateCollateral (sampleKeeper 1000 1000) () "uusdc"
      negativeAtomMTP).mtp = negativeAtomMTP ∧
    (CalcMTPConsolidateCollateral (sampleKeeper 1000 1000) () "uusdc" negativeAtomMTP).calls
      = [Call.PreparePools "uatom"] :=
  ⟨rfl, rfl, rfl⟩

/-- C3: consolidation is fail-fast and leaves no part of a total behind.  If the loop adds a
value for every entry before `c` and, for `c`, the pool preparation fails with `e`, or the pool
is prepared and the swap estimation fails with `e`, then `CalcMTPConsolidateCollateral` returns
`e`, without a panic, leaves the MTP, and so its `SumCollateral`, exactly as it was, and has
made the calls of the entries up to and including `c` only, the last one being the call that
failed: no entry after `c` is evaluated. -/
theorem calc_fail_fast (k : Keeper Ctx Pool) (ctx : Ctx) (base : String) (mtp : MTP)
    (pre post : List Coin) (c : Coin) (vs : List Int) (e : Error)
    (h : mtp.Collaterals = pre ++ c :: post)
    (hpre : List.Forall₂ (fun c v => entryResult k ctx base c = .ok v) pre vs)
    (hd : c.Denom ≠ base)
    (hc : k.PreparePools ctx c.Denom = .error e ∨
      ∃ p coin, k.PreparePools ctx c.Denom = .ok p ∧ NewCoin c.Denom c.Amount = some coin ∧
        k.EstimateSwapGivenOut ctx coin base p = .error e) :
    (CalcMTPConsolidateCollateral k ctx base mtp).err = some e ∧
    (CalcMTPConsolidateCollateral k ctx base mtp).panicked = false ∧
    (CalcMTPConsolidateCollateral k ctx base mtp).mtp = mtp ∧
    (CalcMTPConsolidateCollateral k ctx base mtp).mtp.SumCollateral = mtp.SumCollateral ∧
    (CalcMTPConsolidateCollateral k ctx base mtp).calls
      = callsOf k ctx base pre ++ entryCalls k ctx base c ∧
    (k.PreparePools ctx c.Denom = .error e →
      entryCalls k ctx base c = [Call.PreparePools c.Denom]) ∧
    (∀ p coin, k.PreparePools ctx c.Denom = .ok p → NewCoin c.Denom c.Amount = some coin →
      entryCalls k ctx base c
        = [Call.PreparePools c.Denom, Call.EstimateSwapGivenOut coin base p]) := by
  have herr : entryResult k ctx base c = .error e :=
    (entryResult_error_iff k ctx base c e).2 ⟨hd, hc⟩
  rw [calc_of_first_error k ctx base mtp pre post c vs e h hpre herr]
  refine ⟨rfl, rfl, rfl, rfl, rfl, ?_, ?_⟩
  · intro hp
    simp [entryCalls, hd, hp]
  · intro p coin hp hn
    simp [entryCalls, hd, hp, hn]

/-- Witness of C3.  The lookup of the `uosmo` pool fails: the error is returned,
`SumCollateral` keeps its old value 7 and the only call made is that lookup.  The estimation
for 2000 `uatom` fails against a pool holding 1000: the error is returned, `SumCollateral`
keeps its old value 7 and the calls made are the lookup and that estimation. -/
theorem calc_fail_fast_witness :
    ((CalcMTPConsolidateCollateral (sampleKeeper 1000 1000) () "uusdc" missingPoolMTP).err
      = some "pool not found" ∧
     (CalcMTPConsolidateCollateral (sampleKeeper 1000 1000) () "uusdc"
      missingPoolMTP).mtp.SumCollateral = 7 ∧
     (CalcMTPConsolidateCollateral (sampleKeeper 1000 1000) () "uusdc" missingPoolMTP).calls
      = [Call.PreparePools "uosmo"]) ∧
    ((CalcMTPConsolidateCollateral (sampleKeeper 1000 1000) () "uusdc" illiquidAtomMTP).err
      = some "insufficient liquidity" ∧
     (CalcMTPConsolidateCollateral (sampleKeeper 1000 1000) () "uusdc"
      illiquidAtomMTP).mtp.SumCollateral = 7 ∧
     (CalcMTPConsolidateCollateral (sampleKeeper 1000 1000) () "uusdc" illiquidAtomMTP).calls
      = [Call.PreparePools "uatom", Call.EstimateSwapGivenOut ⟨"uatom", 2000⟩ "uusdc" 1]) :=
  have h := calc_fail_fast (sampleKeeper 1000 1000) () "uusdc" missingPoolMTP
    [⟨"uusdc", 1000⟩] [⟨"uatom", 100⟩] ⟨"uosmo", 5⟩ [1000] "pool not found" rfl
    (List.Forall₂.cons rfl List.Forall₂.nil) (by decide) (Or.inl rfl)
  have g := calc_fail_fast (sampleKeeper 1000 1000) () "uusdc" illiquidAtomMTP
    [⟨"uusdc", 1000⟩] [⟨"uusdc", 5⟩] ⟨"uatom", 2000⟩ [1000] "insufficient liquidity" rfl
    (List.Forall₂.cons rfl List.Forall₂.nil) (by decide)
    (Or.inr ⟨1, ⟨"uatom", 2000⟩, rfl, rfl, rfl⟩)
  ⟨⟨h.1, h.2.2.2.1, h.2.2.2.2.1.trans rfl⟩, g.1, g.2.2.2.1, g.2.2.2.2.1.trans rfl⟩

/-- C4, as stated, fails: a zero amount of a denomination other than the base currency is not
skipped.  With a keeper whose pool lookup fails, the MTP holding only zero `uatom` makes
`CalcMTPConsolidateCollateral` call `PreparePools` and return its error. -/
theorem calc_zero_amount_not_skipped :
    (∀ c ∈ zeroAtomMTP.Collaterals, c.Amount = 0 ∧ c.Denom ≠ "uusdc") ∧
    (CalcMTPConsolidateCollateral failingKeeper () "uusdc" zeroAtomMTP).err
      = some "pool not found" ∧
    (CalcMTPConsolidateCollateral failingKeeper () "uusdc" zeroAtomMTP).calls
      = [Call.PreparePools "uatom"] :=
  ⟨by decide, rfl, rfl⟩

/-- C4, amended.  A zero amount of the base currency contributes nothing and triggers no call:
with or without it, the returned error, `SumCollateral`, the call log and the panic flag are
the same.  A zero amount of another denomination `d` is not skipped but valued like every other
entry: once the loop has added a value for the entries before it, `PreparePools` is called for
`d`; when that lookup fails the consolidation fails with its error; when it succeeds and `d` is
a valid denomination, `EstimateSwapGivenOut` is called with the zero coin as the token out,
when it fails the consolidation fails with its error, and when it gives `C` this `C` is added
to the total.  On each failure `SumCollateral` is left as it was. -/
theorem calc_zero_amount_entries (k : Keeper Ctx Pool) (ctx : Ctx) (base : String) (mtp : MTP)
    (pre post : List Coin) :
    ((CalcMTPConsolidateCollateral k ctx base
        { mtp with Collaterals := pre ++ ⟨base, 0⟩ :: post }).err
      = (CalcMTPConsolidateCollateral k ctx base { mtp with Collaterals := pre ++ post }).err ∧
     (CalcMTPConsolidateCollateral k ctx base
        { mtp with Collaterals := pre ++ ⟨base, 0⟩ :: post }).mtp.SumCollateral
      = (CalcMTPConsolidateCollateral k ctx base
          { mtp with Collaterals := pre ++ post }).mtp.SumCollateral ∧
     (CalcMTPConsolidateCollateral k ctx base
        { mtp with Collaterals := pre ++ ⟨base, 0⟩ :: post }).calls
      = (CalcMTPConsolidateCollateral k ctx base { mtp with Collaterals := pre ++ post }).calls ∧
     (CalcMTPConsolidateCollateral k ctx base
        { mtp with Collaterals := pre ++ ⟨base, 0⟩ :: post }).panicked
      = (CalcMTPConsolidateCollateral k ctx base
          { mtp with Collaterals := pre ++ post }).panicked) ∧
    (∀ (d : String) (vs : List Int), d ≠ base →
      List.Forall₂ (fun c v => entryResult k ctx base c = .ok v) pre vs →
      Call.PreparePools d ∈ (CalcMTPConsolidateCollateral k ctx base
          { mtp with Collaterals := pre ++ ⟨d, 0⟩ :: post }).calls ∧
      (∀ e, k.PreparePools ctx d = .error e →
        (CalcMTPConsolidateCollateral k ctx base
            { mtp with Collaterals := pre ++ ⟨d, 0⟩ :: post }).err = some e ∧
        (CalcMTPConsolidateCollateral k ctx base
            { mtp with Collaterals := pre ++ ⟨d, 0⟩ :: post }).mtp.SumCollateral
          = mtp.SumCollateral ∧
        (CalcMTPConsolidateCollateral k ctx base
            { mtp with Collaterals := pre ++ ⟨d, 0⟩ :: post }).calls
          = callsOf k ctx base pre ++ [Call.PreparePools d]) ∧
      (∀ p, k.PreparePools ctx d = .ok p → ValidateDenom d = true →
        Call.EstimateSwapGivenOut ⟨d, 0⟩ base p ∈ (CalcMTPConsolidateCollateral k ctx base
            { mtp with Collaterals := pre ++ ⟨d, 0⟩ :: post }).calls ∧
        (∀ e, k.EstimateSwapGivenOut ctx ⟨d, 0⟩ base p = .error e →
          (CalcMTPConsolidateCollateral k ctx base
              { mtp with Collaterals := pre ++ ⟨d, 0⟩ :: post }).err = some e ∧
          (CalcMTPConsolidateCollateral k ctx base
              { mtp with Collaterals := pre ++ ⟨d, 0⟩ :: post }).mtp.SumCollateral
            = mtp.SumCollateral ∧
          (CalcMTPConsolidateCollateral k ctx base
              { mtp with Collaterals := pre ++ ⟨d, 0⟩ :: post }).calls
            = callsOf k ctx base pre
              ++ [Call.PreparePools d, Call.EstimateSwapGivenOut ⟨d, 0⟩ base p]) ∧
        (∀ (C : Int) (ws : List Int), k.EstimateSwapGivenOut ctx ⟨d, 0⟩ base p = .ok C →
          List.Forall₂ (fun c v => entryResult k ctx base c = .ok v) post ws →
          (CalcMTPConsolidateCollateral k ctx base
              { mtp with Collaterals := pre ++ ⟨d, 0⟩ :: post }).err = none ∧
          (CalcMTPConsolidateCollateral k ctx base
              { mtp with Collaterals := pre ++ ⟨d, 0⟩ :: post }).mtp.SumCollateral
            = vs.sum + C + ws.sum))) := by
  constructor
  · have hz := consolidateLoop_zero_base k ctx base pre post 0 []
    simp only [CalcMTPConsolidateCollateral, hz]
    rcases consolidateLoop k ctx base (pre ++ post) 0 [] with ⟨r, calls⟩
    cases r <;> simp
  · intro d vs hd hpre
    have hloop : ∀ rest, consolidateLoop k ctx base (pre ++ ⟨d, 0⟩ :: rest) 0 []
        = consolidateLoop k ctx base (⟨d, 0⟩ :: rest) (0 + vs.sum)
            ([] ++ callsOf k ctx base pre) :=
      fun rest => consolidateLoop_append k ctx base pre (⟨d, 0⟩ :: rest) vs hpre 0 []
    have hcalls : ∀ m : MTP, m.Collaterals = pre ++ ⟨d, 0⟩ :: post →
        (CalcMTPConsolidateCollateral k ctx base m).calls
          = (consolidateLoop k ctx base m.Collaterals 0 []).2 := by
      intro m _
      unfold CalcMTPConsolidateCollateral
      rcases consolidateLoop k ctx base m.Collaterals 0 [] with ⟨r, calls⟩
      cases r <;> rfl
    refine ⟨?_, ?_, ?_⟩
    · rw [hcalls _ rfl]
      simp only []
      rw [hloop post, consolidateLoop_cons]
      have hmem : Call.PreparePools d ∈ entryCalls k ctx base ⟨d, 0⟩ := by
        unfold entryCalls
        simp only [hd, if_false]
        cases k.PreparePools ctx d with
        | error e => simp
        | ok p =>
          simp only []
          cases NewCoin d 0 <;> simp
      cases entryResult k ctx base ⟨d, 0⟩ with
      | ok C =>
        simp only []
        obtain ⟨more, hmore⟩ := consolidateLoop_log k ctx base post (0 + vs.sum + C)
          ([] ++ callsOf k ctx base pre ++ entryCalls k ctx base ⟨d, 0⟩)
        rw [hmore]
        simp only [List.mem_append]
        exact Or.inl (Or.inr hmem)
      | error e => exact List.mem_append_right _ hmem
      | panic => exact List.mem_append_right _ hmem
    · intro e hp
      have herr : entryResult k ctx base ⟨d, 0⟩ = .error e :=
        (entryResult_error_iff k ctx base ⟨d, 0⟩ e).2 ⟨hd, Or.inl hp⟩
      rw [calc_of_first_error k ctx base _ pre post ⟨d, 0⟩ vs e rfl hpre herr]
      refine ⟨rfl, rfl, ?_⟩
      simp [entryCalls, hd, hp]
    · intro p hp hvalid
      have hcoin : NewCoin d 0 = some ⟨d, 0⟩ := NewCoin_of_valid d 0 hvalid le_rfl
      have hec : entryCalls k ctx base ⟨d, 0⟩
          = [Call.PreparePools d, Call.EstimateSwapGivenOut ⟨d, 0⟩ base p] := by
        simp [entryCalls, hd, hp, hcoin]
      refine ⟨?_, ?_, ?_⟩
      · rw [hcalls _ rfl]
        simp only []
        rw [hloop post, consolidateLoop_cons]
        have hmem : Call.EstimateSwapGivenOut ⟨d, 0⟩ base p ∈ entryCalls k ctx base ⟨d, 0⟩ := by
          rw [hec]; simp
        cases entryResult k ctx base ⟨d, 0⟩ with
        | ok C =>
          simp only []
          obtain ⟨more, hmore⟩ := consolidateLoop_log k ctx base post (0 + vs.sum + C)
            ([] ++ callsOf k ctx base pre ++ entryCalls k ctx base ⟨d, 0⟩)
          rw [hmore]
          simp only [List.mem_append]
          exact Or.inl (Or.inr hmem)
        | error e => exact List.mem_append_right _ hmem
        | panic => exact List.mem_append_right _ hmem
      · intro e he
        have herr : entryResult k ctx base ⟨d, 0⟩ = .error e :=
          (entryResult_error_iff k ctx base ⟨d, 0⟩ e).2
            ⟨hd, Or.inr ⟨p, ⟨d, 0⟩, hp, hcoin, he⟩⟩
        rw [calc_of_first_error k ctx base _ pre post ⟨d, 0⟩ vs e rfl hpre herr]
        exact ⟨rfl, rfl, by rw [hec]⟩
      · intro C ws hC hpost
        have hok : entryResult k ctx base ⟨d, 0⟩ = .ok C := by
          simp [entryResult, hd, hp, hcoin, hC]
        have hall : List.Forall₂ (fun c v => entryResult k ctx base c = .ok v)
            (pre ++ ⟨d, 0⟩ :: post) (vs ++ C :: ws) :=
          List.rel_append hpre (List.Forall₂.cons hok hpost)
        rw [calc_sum_of_added_values k ctx base
          { mtp with Collaterals := pre ++ ⟨d, 0⟩ :: post } (vs ++ C :: ws) hall]
        exact ⟨rfl, by simp [add_assoc]⟩

/-- Witness of C4 amended: after 1000 `uusdc`, zero `uosmo`, for which there is no pool, makes
the consolidation fail; zero `uatom`, for which there is a pool, makes it call
`EstimateSwapGivenOut` with the zero coin and add its result, here zero. -/
theorem calc_zero_amount_entries_witness :
    ((CalcMTPConsolidateCollateral (sampleKeeper 1000 1000) () "uusdc"
        { emptyMTP with Collaterals := [⟨"uusdc", 1000⟩] ++ ⟨"uosmo", 0⟩ :: [⟨"uusdc", 5⟩] }).err
      = some "pool not found" ∧
     (CalcMTPConsolidateCollateral (sampleKeeper 1000 1000) () "uusdc"
        { emptyMTP with
          Collaterals := [⟨"uusdc", 1000⟩] ++ ⟨"uosmo", 0⟩ :: [⟨"uusdc", 5⟩] }).mtp.SumCollateral
      = 7) ∧
    (Call.EstimateSwapGivenOut ⟨"uatom", 0⟩ "uusdc" 1
      ∈ (CalcMTPConsolidateCollateral (sampleKeeper 1000 1000) () "uusdc"
        { emptyMTP with
          Collaterals := [⟨"uusdc", 1000⟩] ++ ⟨"uatom", 0⟩ :: [⟨"uusdc", 5⟩] }).calls ∧
     (CalcMTPConsolidateCollateral (sampleKeeper 1000 1000) () "uusdc"
        { emptyMTP with
          Collaterals := [⟨"uusdc", 1000⟩] ++ ⟨"uatom", 0⟩ :: [⟨"uusdc", 5⟩] }).mtp.SumCollateral
      = 1005) :=
  have h := (calc_zero_amount_entries (sampleKeeper 1000 1000) () "uusdc" emptyMTP
    [⟨"uusdc", 1000⟩] [⟨"uusdc", 5⟩]).2
  have hpre : List.Forall₂ (fun c v => entryResult (sampleKeeper 1000 1000) () "uusdc" c = .ok v)
      [⟨"uusdc", 1000⟩] [1000] := List.Forall₂.cons rfl List.Forall₂.nil
  have hpost : List.Forall₂ (fun c v => entryResult (sampleKeeper 1000 1000) () "uusdc" c = .ok v)
      [⟨"uusdc", 5⟩] [5] := List.Forall₂.cons rfl List.Forall₂.nil
  have hosmo := (h "uosmo" [1000] (by decide) hpre).2.1 "pool not found" rfl
  have hatom := (h "uatom" [1000] (by decide) hpre).2.2 1 rfl rfl
  ⟨⟨hosmo.1, hosmo.2.1⟩, hatom.1, (hatom.2.2 0 [5] rfl hpost).2⟩

/-- What the code adds for an entry in a denomination other than the base currency: when the
loop adds a value for the entries before and after it, the pool lookup for its denomination
gives `p`, `sdk.NewCoin` builds the coin and `EstimateSwapGivenOut`, called with the collateral
coin as the token out and the base currency as the denomination in, gives `C`, then `C` is the
amount added to the total, these two calls are the ones made for the entry, and the
exact-amount-in estimator is not called at all. -/
theorem calc_non_base_entry_value (k : Keeper Ctx Pool) (ctx : Ctx) (base : String) (mtp : MTP)
    (pre post : List Coin) (c coin : Coin) (vs ws : List Int) (p : Pool) (C : Int)
    (h : mtp.Collaterals = pre ++ c :: post) (hd : c.Denom ≠ base)
    (hpre : List.Forall₂ (fun c v => entryResult k ctx base c = .ok v) pre vs)
    (hpost : List.Forall₂ (fun c v => entryResult k ctx base c = .ok v) post ws)
    (hp : k.PreparePools ctx c.Denom = .ok p)
    (hn : NewCoin c.Denom c.Amount = some coin)
    (hC : k.EstimateSwapGivenOut ctx coin base p = .ok C) :
    (CalcMTPConsolidateCollateral k ctx base mtp).err = none ∧
    (CalcMTPConsolidateCollateral k ctx base mtp).mtp.SumCollateral = vs.sum + C + ws.sum ∧
    (CalcMTPConsolidateCollateral k ctx base mtp).calls
      = callsOf k ctx base pre
        ++ [Call.PreparePools c.Denom, Call.EstimateSwapGivenOut coin base p]
        ++ callsOf k ctx base post ∧
    (∀ (tokenIn : Coin) (d : String) (q : Pool),
      Call.EstimateSwap tokenIn d q ∉ (CalcMTPConsolidateCollateral k ctx base mtp).calls) := by
  have hcv : entryResult k ctx base c = .ok C := by
    simp [entryResult, hd, hp, hn, hC]
  have hall : List.Forall₂ (fun c v => entryResult k ctx base c = .ok v) mtp.Collaterals
      (vs ++ C :: ws) := by
    rw [h]
    exact List.rel_append hpre (List.Forall₂.cons hcv hpost)
  have hcalls : callsOf k ctx base mtp.Collaterals
      = callsOf k ctx base pre
        ++ [Call.PreparePools c.Denom, Call.EstimateSwapGivenOut coin base p]
        ++ callsOf k ctx base post := by
    rw [h, callsOf_append]
    simp [callsOf, entryCalls, hd, hp, hn]
  rw [calc_sum_of_added_values k ctx base mtp (vs ++ C :: ws) hall]
  refine ⟨rfl, by simp [add_assoc], hcalls, ?_⟩
  intro tokenIn d q
  exact callsOf_no_EstimateSwap k ctx base mtp.Collaterals tokenIn d q

/-- C5 at a concrete pool: against a fee-less constant-product pool of 1000 `uatom` and 1000
`uusdc`, swapping exactly 100 `uatom` in is estimated to give 90 `uusdc` out, but the amount
that `CalcMTPConsolidateCollateral` adds for the entry of 100 `uatom` is 112, the estimate of
the `uusdc` to pay in for getting exactly 100 `uatom` out: the single estimator call made is
`EstimateSwapGivenOut` with the collateral coin as the token out. -/
theorem calc_non_base_value_is_given_out_estimate :
    (sampleKeeper 1000 1000).EstimateSwap () ⟨"uatom", 100⟩ "uusdc" 1 = .ok 90 ∧
    (sampleKeeper 1000 1000).EstimateSwapGivenOut () ⟨"uatom", 100⟩ "uusdc" 1 = .ok 112 ∧
    (CalcMTPConsolidateCollateral (sampleKeeper 1000 1000) () "uusdc" hundredAtomMTP).err
      = none ∧
    (CalcMTPConsolidateCollateral (sampleKeeper 1000 1000) () "uusdc"
      hundredAtomMTP).mtp.SumCollateral = 112 ∧
    (CalcMTPConsolidateCollateral (sampleKeeper 1000 1000) () "uusdc" hundredAtomMTP).calls
      = [Call.PreparePools "uatom", Call.EstimateSwapGivenOut ⟨"uatom", 100⟩ "uusdc" 1] :=
  ⟨rfl, rfl, rfl, rfl, rfl⟩

end Margin

/-! ## Lemmas on `GetPosition` and `Close` -/

namespace Leveragelp

variable {σ : Type}

/-- The lookup fails with `PositionNotFound` when no stored position has the given key. -/
theorem GetPosition_of_absent (ctx : Ctx σ) (positionAddress : String) (id : Nat)
    (h : ∀ p ∈ ctx.positions, ¬ (p.Address = positionAddress ∧ p.Id = id)) :
    GetPosition ctx positionAddress id = .error ErrPositionNotFound := by
  have hf : ctx.positions.find? (fun p => decide (p.Address = positionAddress ∧ p.Id = id))
      = none := by
    rw [List.find?_eq_none]
    intro p hp
    simpa using h p hp
  unfold GetPosition
  rw [hf]

/-- `Close` when the lookup fails: the error is returned and nothing else happens. -/
theorem Close_of_lookup_error (k : Keeper σ) (EventClose : String) (ctx : Ctx σ) (msg : MsgClose)
    (e : Error) (h : GetPosition ctx msg.Creator msg.Id = .error e) :
    Close k EventClose ctx msg = ⟨none, some e, false, ctx, [], 0⟩ := by
  simp [Close, h]

/-- `Close` when `CloseLong` returns an error: the error is returned, no event is emitted. -/
theorem Close_of_closeLong_error (k : Keeper σ) (EventClose : String) (ctx : Ctx σ)
    (msg : MsgClose) (position : Position) (e : Error)
    (hget : GetPosition ctx msg.Creator msg.Id = .ok position)
    (herr : (k.CloseLong ctx msg).1.err = some e) :
    Close k EventClose ctx msg = ⟨none, some e, false, (k.CloseLong ctx msg).2, [], 1⟩ := by
  rcases hcl : k.CloseLong ctx msg with ⟨⟨cp, ra, er⟩, ctx1⟩
  rw [hcl] at herr
  simp only at herr
  subst herr
  simp [Close, hget, hcl]

/-- `Close` when `CloseLong` succeeds with a closed position: one event is emitted. -/
theorem Close_of_closeLong_ok (k : Keeper σ) (EventClose : String) (ctx ctx1 : Ctx σ)
    (msg : MsgClose) (position closedPosition : Position) (repayAmount : Int)
    (hget : GetPosition ctx msg.Creator msg.Id = .ok position)
    (hcl : k.CloseLong ctx msg = (⟨some closedPosition, repayAmount, none⟩, ctx1)) :
    Close k EventClose ctx msg
      = ⟨some {}, none, false,
          EmitEvent ctx1 (closeEvent EventClose position closedPosition repayAmount),
          [closeEvent EventClose position closedPosition repayAmount], 1⟩ := by
  simp [Close, hget, hcl]

/-- The outcomes of `Close`, case by case: the lookup fails; `CloseLong` returns an error;
`CloseLong` returns neither an error nor a position; `CloseLong` succeeds. -/
theorem Close_cases (k : Keeper σ) (EventClose : String) (ctx : Ctx σ) (msg : MsgClose) :
    (∃ e, GetPosition ctx msg.Creator msg.Id = .error e ∧
      Close k EventClose ctx msg = ⟨none, some e, false, ctx, [], 0⟩) ∨
    (∃ position e, GetPosition ctx msg.Creator msg.Id = .ok position ∧
      (k.CloseLong ctx msg).1.err = some e ∧
      Close k EventClose ctx msg = ⟨none, some e, false, (k.CloseLong ctx msg).2, [], 1⟩) ∨
    (∃ position repayAmount ctx1, GetPosition ctx msg.Creator msg.Id = .ok position ∧
      k.CloseLong ctx msg = (⟨none, repayAmount, none⟩, ctx1) ∧
      Close k EventClose ctx msg = ⟨none, none, true, ctx1, [], 1⟩) ∨
    (∃ position closedPosition repayAmount ctx1,
      GetPosition ctx msg.Creator msg.Id = .ok position ∧
      k.CloseLong ctx msg = (⟨some closedPosition, repayAmount, none⟩, ctx1) ∧
      Close k EventClose ctx msg
        = ⟨some {}, none, false,
            EmitEvent ctx1 (closeEvent EventClose position closedPosition repayAmount),
            [closeEvent EventClose position closedPosition repayAmount], 1⟩) := by
  cases hget : GetPosition ctx msg.Creator msg.Id with
  | error e => exact Or.inl ⟨e, rfl, Close_of_lookup_error k EventClose ctx msg e hget⟩
  | ok position =>
    right
    rcases hcl : k.CloseLong ctx msg with ⟨⟨cp, ra, er⟩, ctx1⟩
    cases er with
    | some e =>
      have h := Close_of_closeLong_error k EventClose ctx msg position e hget (by rw [hcl])
      rw [hcl] at h
      exact Or.inl ⟨position, e, rfl, rfl, h⟩
    | none =>
      right
      cases cp with
      | none =>
        left
        refine ⟨position, ra, ctx1, rfl, rfl, ?_⟩
        simp [Close, hget, hcl]
      | some closedPosition =>
        right
        exact ⟨position, closedPosition, ra, ctx1, rfl, rfl,
          Close_of_closeLong_ok k EventClose ctx ctx1 msg position closedPosition ra hget hcl⟩

end Leveragelp

/-! ## Claims on `Keeper.Close` and `CloseLong` -/

namespace Leveragelp

variable {σ : Type}

/-- C6: close of a position that is not stored.  For every `MsgClose` whose `(creator, id)` has
no stored position, `Keeper.Close` returns the error of the lookup with a nil response, does
not call `CloseLong`, emits no event and leaves the context as it was. -/
theorem close_position_not_found (k : Keeper σ) (EventClose : String) (ctx : Ctx σ)
    (msg : MsgClose)
    (h : ∀ p ∈ ctx.positions, ¬ (p.Address = msg.Creator ∧ p.Id = msg.Id)) :
    GetPosition ctx msg.Creator msg.Id = .error ErrPositionNotFound ∧
    (Close k EventClose ctx msg).resp = none ∧
    (Close k EventClose ctx msg).err = some ErrPositionNotFound ∧
    (Close k EventClose ctx msg).closeLongCalls = 0 ∧
    (Close k EventClose ctx msg).emitted = [] ∧
    (Close k EventClose ctx msg).ctx = ctx := by
  have hget := GetPosition_of_absent ctx msg.Creator msg.Id h
  rw [Close_of_lookup_error k EventClose ctx msg _ hget]
  exact ⟨hget, rfl, rfl, rfl, rfl, rfl⟩

/-- Witness of C6: the store holds position 1 of `elys1owner`, the message asks for position 2. -/
theorem close_position_not_found_witness :
    (Close (closingKeeper 5) "close" (storeOf [samplePosition]) ⟨"elys1owner", 2⟩).resp = none ∧
    (Close (closingKeeper 5) "close" (storeOf [samplePosition]) ⟨"elys1owner", 2⟩).err
      = some ErrPositionNotFound ∧
    (Close (closingKeeper 5) "close" (storeOf [samplePosition]) ⟨"elys1owner", 2⟩).closeLongCalls
      = 0 ∧
    (Close (closingKeeper 5) "close" (storeOf [samplePosition]) ⟨"elys1owner", 2⟩).emitted = [] ∧
    (Close (closingKeeper 5) "close" (storeOf [samplePosition]) ⟨"elys1owner", 2⟩).ctx
      = storeOf [samplePosition] :=
  (close_position_not_found (closingKeeper 5) "close" (storeOf [samplePosition])
    ⟨"elys1owner", 2⟩ (by decide)).2

/-- C7: `CloseLong` on a position that was never opened.  For every creator and id with no
stored position, `CloseLong` fails with an error (`PositionNotFound`) and reports a repay
amount of zero; it returns no position and leaves the context as it was. -/
theorem closeLong_never_opened (settle : Ctx σ → Position → CloseLongResult × Ctx σ)
    (ctx : Ctx σ) (msg : MsgClose)
    (h : ∀ p ∈ ctx.positions, ¬ (p.Address = msg.Creator ∧ p.Id = msg.Id)) :
    (CloseLong settle ctx msg).1.err = some ErrPositionNotFound ∧
    (CloseLong settle ctx msg).1.err ≠ none ∧
    (CloseLong settle ctx msg).1.repayAmount = 0 ∧
    (CloseLong settle ctx msg).1.closedPosition = none ∧
    (CloseLong settle ctx msg).2 = ctx := by
  have hget := GetPosition_of_absent ctx msg.Creator msg.Id h
  simp [CloseLong, hget]

/-- Witness of C7: a fresh address and id 1, on a store without positions. -/
theorem closeLong_never_opened_witness :
    (CloseLong (sampleSettle 5) (storeOf []) ⟨"elys1fresh", 1⟩).1.err
      = some ErrPositionNotFound ∧
    (CloseLong (sampleSettle 5) (storeOf []) ⟨"elys1fresh", 1⟩).1.repayAmount = 0 :=
  have h := closeLong_never_opened (sampleSettle 5) (storeOf []) ⟨"elys1fresh", 1⟩
    (by intro p hp; cases hp)
  ⟨h.1, h.2.2.1⟩

/-- C8: `Keeper.Close` has no silent part success.  Whenever `CloseLong`, called for a stored
position, returns an error, `Close` returns that same error with a nil response and emits no
event: the context it leaves, and so the events held by its event manager, is the one that
`CloseLong` left.  `Close` emits an event, which is then of type `EventClose`, if and only if
it returns success (a response and a nil error); and this is a statement on the events of the
context: when the lookup fails the context is untouched, and when it succeeds the events of
the context after `Close` are those that `CloseLong` left followed by the events that `Close`
emitted, so that one event of type `EventClose` has been added to them if and only if `Close`
returns success, and none otherwise. -/
theorem close_no_silent_success (k : Keeper σ) (EventClose : String) (ctx : Ctx σ)
    (msg : MsgClose) :
    (∀ (position : Position) (e : Error),
      GetPosition ctx msg.Creator msg.Id = .ok position →
      (k.CloseLong ctx msg).1.err = some e →
      (Close k EventClose ctx msg).err = some e ∧
      (Close k EventClose ctx msg).resp = none ∧
      (Close k EventClose ctx msg).emitted = [] ∧
      (Close k EventClose ctx msg).ctx = (k.CloseLong ctx msg).2 ∧
      (Close k EventClose ctx msg).ctx.events = (k.CloseLong ctx msg).2.events) ∧
    ((∃ ev, ev ∈ (Close k EventClose ctx msg).emitted ∧ ev.Type_ = EventClose) ↔
      ((Close k EventClose ctx msg).resp = some {} ∧ (Close k EventClose ctx msg).err = none ∧
        (Close k EventClose ctx msg).panicked = false)) ∧
    ((Close k EventClose ctx msg).emitted ≠ [] ↔
      ((Close k EventClose ctx msg).resp = some {} ∧ (Close k EventClose ctx msg).err = none ∧
        (Close k EventClose ctx msg).panicked = false)) ∧
    (∀ e : Error, GetPosition ctx msg.Creator msg.Id = .error e →
      (Close k EventClose ctx msg).ctx = ctx ∧
      (Close k EventClose ctx msg).ctx.events = ctx.events ∧
      (Close k EventClose ctx msg).err = some e ∧
      (Close k EventClose ctx msg).resp = none) ∧
    (∀ position : Position, GetPosition ctx msg.Creator msg.Id = .ok position →
      (Close k EventClose ctx msg).ctx.events
        = (k.CloseLong ctx msg).2.events ++ (Close k EventClose ctx msg).emitted ∧
      ((∃ ev, ev.Type_ = EventClose ∧
          (Close k EventClose ctx msg).ctx.events = (k.CloseLong ctx msg).2.events ++ [ev]) ↔
        ((Close k EventClose ctx msg).resp = some {} ∧ (Close k EventClose ctx msg).err = none ∧
          (Close k EventClose ctx msg).panicked = false)) ∧
      (¬ ((Close k EventClose ctx msg).resp = some {} ∧ (Close k EventClose ctx msg).err = none ∧
          (Close k EventClose ctx msg).panicked = false) →
        (Close k EventClose ctx msg).ctx.events = (k.CloseLong ctx msg).2.events)) := by
  refine ⟨?_, ?_, ?_, ?_, ?_⟩
  · intro position e hget herr
    rw [Close_of_closeLong_error k EventClose ctx msg position e hget herr]
    exact ⟨rfl, rfl, rfl, rfl, rfl⟩
  · rcases Close_cases k EventClose ctx msg with ⟨e, _, hc⟩ | ⟨_, e, _, _, hc⟩ |
      ⟨_, _, _, _, _, hc⟩ | ⟨position, closedPosition, repayAmount, ctx1, _, _, hc⟩
    · rw [hc]; simp
    · rw [hc]; simp
    · rw [hc]; simp
    · rw [hc]; simp [closeEvent, NewEvent]
  · rcases Close_cases k EventClose ctx msg with ⟨e, _, hc⟩ | ⟨_, e, _, _, hc⟩ |
      ⟨_, _, _, _, _, hc⟩ | ⟨position, closedPosition, repayAmount, ctx1, _, _, hc⟩
    · rw [hc]; simp
    · rw [hc]; simp
    · rw [hc]; simp
    · rw [hc]; simp
  · intro e hget
    rw [Close_of_lookup_error k EventClose ctx msg e hget]
    exact ⟨rfl, rfl, rfl, rfl⟩
  · intro position hget
    rcases Close_cases k EventClose ctx msg with ⟨e, hget1, _⟩ | ⟨_, e, _, _, hc⟩ |
      ⟨_, ra, ctx1, _, hcl, hc⟩ | ⟨position1, closedPosition, repayAmount, ctx1, _, hcl, hc⟩
    · rw [hget] at hget1
      cases hget1
    · rw [hc]
      simp
    · rw [hc, hcl]
      simp
    · rw [hc, hcl]
      refine ⟨?_, ?_, ?_⟩
      · simp [EmitEvent]
      · simp only [EmitEvent, and_self, iff_true]
        exact ⟨closeEvent EventClose position1 closedPosition repayAmount, rfl, rfl⟩
      · intro h
        exact absurd ⟨rfl, rfl, rfl⟩ h

/-- Witness of C8.  The position is stored and `CloseLong` fails with its own error after
emptying the store: `Close` returns that error, no response and no event.  The position is
stored and `CloseLong` succeeds: `Close` returns success and the events of the context are
those that `CloseLong` left, none, followed by one event of type `close`. -/
theorem close_no_silent_success_witness :
    (GetPosition (storeOf [samplePosition]) "elys1owner" 1 = .ok samplePosition ∧
     (rejectingKeeper.CloseLong (storeOf [samplePosition]) ⟨"elys1owner", 1⟩).1.err
       = some "insufficient liquidity" ∧
     (Close rejectingKeeper "close" (storeOf [samplePosition]) ⟨"elys1owner", 1⟩).err
       = some "insufficient liquidity" ∧
     (Close rejectingKeeper "close" (storeOf [samplePosition]) ⟨"elys1owner", 1⟩).resp = none ∧
     (Close rejectingKeeper "close" (storeOf [samplePosition]) ⟨"elys1owner", 1⟩).emitted = [] ∧
     (Close rejectingKeeper "close" (storeOf [samplePosition]) ⟨"elys1owner", 1⟩).ctx.events
       = []) ∧
    ((Close (closingKeeper 5) "close" (storeOf [samplePosition]) ⟨"elys1owner", 1⟩).err = none ∧
     ∃ ev, ev.Type_ = "close" ∧
      (Close (closingKeeper 5) "close" (storeOf [samplePosition]) ⟨"elys1owner", 1⟩).ctx.events
        = [] ++ [ev]) :=
  have hfail := (close_no_silent_success rejectingKeeper "close" (storeOf [samplePosition])
    ⟨"elys1owner", 1⟩).1 samplePosition "insufficient liquidity" rfl rfl
  have hok := ((close_no_silent_success (closingKeeper 5) "close" (storeOf [samplePosition])
    ⟨"elys1owner", 1⟩).2.2.2.2 samplePosition rfl).2.1
  ⟨⟨rfl, rfl, hfail.1, hfail.2.1, hfail.2.2.1, hfail.2.2.2.2⟩,
    rfl, hok.2 ⟨rfl, rfl, rfl⟩⟩

/-- The event of a successful `Close`: `Close` returns success exactly when `CloseLong`, called
for a stored position, returns a closed position and no error; it then emits exactly one
event, of type `EventClose`, with the eight attributes `id`, `address`, `collateral`,
`repay_amount`, `leverage`, `liabilities`, `interest_paid`, `health` in this order, where
`repay_amount` renders the amount returned by `CloseLong`, `id` renders the id of the closed
position converted to `int64`, which is the decimal rendering of the id when it is below
`2^63`, and `interest_paid` renders the interest paid of the position found by the lookup. -/
theorem close_success_event (k : Keeper σ) (EventClose : String) (ctx : Ctx σ) (msg : MsgClose)
    (hok : (Close k EventClose ctx msg).err = none)
    (hresp : (Close k EventClose ctx msg).resp ≠ none) :
    ∃ position closedPosition repayAmount ctx1,
      GetPosition ctx msg.Creator msg.Id = .ok position ∧
      k.CloseLong ctx msg = (⟨some closedPosition, repayAmount, none⟩, ctx1) ∧
      (Close k EventClose ctx msg).emitted
        = [closeEvent EventClose position closedPosition repayAmount] ∧
      (Close k EventClose ctx msg).ctx.events
        = ctx1.events ++ [closeEvent EventClose position closedPosition repayAmount] ∧
      (closeEvent EventClose position closedPosition repayAmount).Type_ = EventClose ∧
      (closeEvent EventClose position closedPosition repayAmount).Attributes.map (fun a => a.Key)
        = ["id", "address", "collateral", "repay_amount", "leverage", "liabilities",
            "interest_paid", "health"] ∧
      NewAttribute "repay_amount" (toString repayAmount)
        ∈ (closeEvent EventClose position closedPosition repayAmount).Attributes ∧
      NewAttribute "interest_paid" (toString position.InterestPaid)
        ∈ (closeEvent EventClose position closedPosition repayAmount).Attributes ∧
      (closedPosition.Id < 2 ^ 63 →
        NewAttribute "id" (toString closedPosition.Id)
          ∈ (closeEvent EventClose position closedPosition repayAmount).Attributes) := by
  rcases Close_cases k EventClose ctx msg with ⟨e, _, hc⟩ | ⟨_, e, _, _, hc⟩ |
    ⟨_, _, _, _, _, hc⟩ | ⟨position, closedPosition, repayAmount, ctx1, hget, hcl, hc⟩
  · rw [hc] at hok; simp at hok
  · rw [hc] at hok; simp at hok
  · rw [hc] at hresp; simp at hresp
  · refine ⟨position, closedPosition, repayAmount, ctx1, hget, hcl, ?_, ?_, rfl, rfl, ?_, ?_, ?_⟩
    · rw [hc]
    · rw [hc]; rfl
    · simp [closeEvent, NewEvent, NewAttribute, IntString]
    · simp [closeEvent, NewEvent, NewAttribute, IntString]
    · intro hlt
      have h64 : closedPosition.Id % 2 ^ 64 = closedPosition.Id :=
        Nat.mod_eq_of_lt (lt_trans hlt (by norm_num))
      have hid : FormatInt (toInt64 closedPosition.Id) = toString closedPosition.Id := by
        unfold FormatInt toInt64
        rw [h64, if_pos hlt]
        rfl
      simp [closeEvent, NewEvent, NewAttribute, hid]

/-- C9 at the id `2^63`: the close succeeds and emits one event with the eight attributes in
the stated order, but the `id` attribute is `-9223372036854775808`, while the decimal rendering
of the id of the closed position is `9223372036854775808`. -/
theorem close_event_id_of_large_id :
    (Close (closingKeeper 5) "close" (storeOf [largeIdPosition]) ⟨"elys1owner", 2 ^ 63⟩).err
      = none ∧
    ((closingKeeper 5).CloseLong (storeOf [largeIdPosition])
        ⟨"elys1owner", 2 ^ 63⟩).1.closedPosition.map (fun q => toString q.Id)
      = some "9223372036854775808" ∧
    (Close (closingKeeper 5) "close" (storeOf [largeIdPosition]) ⟨"elys1owner", 2 ^ 63⟩).emitted
      = [⟨"close",
          [⟨"id", "-9223372036854775808"⟩, ⟨"address", "elys1owner"⟩,
           ⟨"collateral", "1000uusdc"⟩, ⟨"repay_amount", "4000"⟩,
           ⟨"leverage", "5.000000000000000000"⟩, ⟨"liabilities", "4000"⟩,
           ⟨"interest_paid", "0"⟩, ⟨"health", "1.221000000000000000"⟩]⟩] := by
  refine ⟨rfl, ?_, ?_⟩
  · decide
  · decide

/-- C10 at a close that pays interest: `CloseLong` pays 5 of interest, so that the closed
position it returns has an interest paid of 5, as its other fields are those rendered in the
event; but the `interest_paid` attribute of the event is `0`, the interest paid of the position
as `GetPosition` found it before the close. -/
theorem close_event_interest_paid_of_lookup :
    (GetPosition (storeOf [samplePosition]) "elys1owner" 1).toOption.map
        (fun q => q.InterestPaid) = some 0 ∧
    ((closingKeeper 5).CloseLong (storeOf [samplePosition])
        ⟨"elys1owner", 1⟩).1.closedPosition.map (fun q => q.InterestPaid) = some 5 ∧
    (Close (closingKeeper 5) "close" (storeOf [samplePosition]) ⟨"elys1owner", 1⟩).err = none ∧
    (Close (closingKeeper 5) "close" (storeOf [samplePosition]) ⟨"elys1owner", 1⟩).emitted
      = [⟨"close",
          [⟨"id", "1"⟩, ⟨"address", "elys1owner"⟩,
           ⟨"collateral", "1000uusdc"⟩, ⟨"repay_amount", "4000"⟩,
           ⟨"leverage", "5.000000000000000000"⟩, ⟨"liabilities", "4000"⟩,
           ⟨"interest_paid", "0"⟩, ⟨"health", "1.221000000000000000"⟩]⟩] := by
  refine ⟨rfl, rfl, rfl, ?_⟩
  decide

/-- C11, as stated, fails: the response of a successful `Close` carries nothing of the closed
position.  Two closes, of position 1 (collateral 1000, liabilities 4000, repay amount 4000) and
of position 2 (collateral 250, liabilities 500, repay amount 500), both succeed and return the
same response. -/
theorem close_response_same_for_different_positions :
    (Close (closingKeeper 5) "close" (storeOf [samplePosition]) ⟨"elys1owner", 1⟩).err = none ∧
    (Close (closingKeeper 5) "close" (storeOf [otherPosition]) ⟨"elys1other", 2⟩).err = none ∧
    ((closingKeeper 5).CloseLong (storeOf [samplePosition]) ⟨"elys1owner", 1⟩).1
      = ⟨some { samplePosition with InterestPaid := 5 }, 4000, none⟩ ∧
    ((closingKeeper 5).CloseLong (storeOf [otherPosition]) ⟨"elys1other", 2⟩).1
      = ⟨some { otherPosition with InterestPaid := 8 }, 500, none⟩ ∧
    (Close (closingKeeper 5) "close" (storeOf [samplePosition]) ⟨"elys1owner", 1⟩).resp
      = (Close (closingKeeper 5) "close" (storeOf [otherPosition]) ⟨"elys1other", 2⟩).resp := by
  refine ⟨rfl, rfl, ?_, ?_, rfl⟩
  · decide
  · decide

/-- C11, amended: on success `Close` returns the empty response record, `MsgCloseResponse` with
no field set, whatever the closed position is; the id, collateral, liabilities and health of
the closed position and the repay amount computed by `CloseLong` are carried by the one event
that `Close` emits, not by the response. -/
theorem close_response_empty (k : Keeper σ) (EventClose : String) (ctx : Ctx σ) (msg : MsgClose)
    (hok : (Close k EventClose ctx msg).err = none)
    (hresp : (Close k EventClose ctx msg).resp ≠ none) :
    (Close k EventClose ctx msg).resp = some {} ∧
    ∃ position closedPosition repayAmount ctx1,
      GetPosition ctx msg.Creator msg.Id = .ok position ∧
      k.CloseLong ctx msg = (⟨some closedPosition, repayAmount, none⟩, ctx1) ∧
      (Close k EventClose ctx msg).emitted
        = [closeEvent EventClose position closedPosition repayAmount] := by
  rcases Close_cases k EventClose ctx msg with ⟨e, _, hc⟩ | ⟨_, e, _, _, hc⟩ |
    ⟨_, _, _, _, _, hc⟩ | ⟨position, closedPosition, repayAmount, ctx1, hget, hcl, hc⟩
  · rw [hc] at hok; simp at hok
  · rw [hc] at hok; simp at hok
  · rw [hc] at hresp; simp at hresp
  · refine ⟨?_, position, closedPosition, repayAmount, ctx1, hget, hcl, ?_⟩
    · rw [hc]
    · rw [hc]

/-- Witness of C11 amended: the close of the sample position. -/
theorem close_response_empty_witness :
    (Close (closingKeeper 5) "close" (storeOf [samplePosition]) ⟨"elys1owner", 1⟩).resp
      = some {} :=
  (close_response_empty (closingKeeper 5) "close" (storeOf [samplePosition])
    ⟨"elys1owner", 1⟩ rfl (by decide)).1

/-- When the proceeds of liquidating the custody cover the liabilities, `ForceCloseLong` returns
the liabilities. -/
theorem ForceCloseLong_of_covered {π : Type} (amm : Amm π) (pool pool1 : π)
    (position : OpenedPosition) (proceeds : Int)
    (hliq : amm.liquidate pool position.custodyAmount = .ok (proceeds, pool1))
    (hcov : position.liabilities ≤ proceeds) :
    ForceCloseLong amm pool position = .ok (position.liabilities, pool1) := by
  simp [ForceCloseLong, hliq, min_eq_left hcov]

/-- The round trip through the pool without fees: with balances `A` and `B`, what is bought
with `p` is sold again for `out`, and `B * (p - out) < A + p + B`; the loss is the rounding of
the two swaps, not a fee. -/
theorem feelessAmm_round_trip (A B p : Int) (hA : 0 < A) (hB : 0 < B) (hp : 0 ≤ p) :
    ∃ custody out pool1 pool2,
      feelessAmm.swapExactIn ⟨A, B⟩ p = .ok (custody, pool1) ∧
      feelessAmm.liquidate pool1 custody = .ok (out, pool2) ∧
      out ≤ p ∧ B * (p - out) < A + p + B := by
  have hAp : 0 < A + p := by linarith
  have hq0 : 0 ≤ B * p / (A + p) := Int.ediv_nonneg (mul_nonneg hB.le hp) hAp.le
  have hcust : B - B * p / (A + p) + B * p / (A + p) = B := by ring
  refine ⟨B * p / (A + p), (A + p) * (B * p / (A + p)) / B,
    ⟨A + p, B - B * p / (A + p)⟩,
    ⟨A + p - (A + p) * (B * p / (A + p)) / B, B⟩, ?_, ?_, ?_, ?_⟩
  · simp [feelessAmm, hp, hAp]
  · simp [feelessAmm, hq0, hcust, hB]
  · have h1 : (A + p) * (B * p / (A + p)) ≤ B * p := Int.mul_ediv_self_le (ne_of_gt hAp)
    have h2 : (A + p) * (B * p / (A + p)) / B ≤ B * p / B := Int.ediv_le_ediv hB h1
    rwa [Int.mul_ediv_cancel_left _ (ne_of_gt hB)] at h2
  · have hr : B * p < (A + p) * (B * p / (A + p)) + (A + p) := by
      have := Int.lt_ediv_add_one_mul_self (B * p) hAp
      nlinarith
    have hs : (A + p) * (B * p / (A + p))
        < B * ((A + p) * (B * p / (A + p)) / B) + B := by
      have := Int.lt_ediv_add_one_mul_self ((A + p) * (B * p / (A + p))) hB
      nlinarith
    nlinarith

/-- The pool without fees covers the borrowed principal: with balances `A` and `B`, a
collateral `c` and a whole leverage `n` such that `A + c * n <= B * c`, opening the position
and force-closing it at once both succeed and the force close returns `c * (n - 1)`. -/
theorem feelessAmm_repays_principal (A B c n : Int) (creator : String) (hA : 0 < A)
    (hB : 0 < B) (hc : 0 ≤ c) (hn : 1 ≤ n) (hsize : A + c * n ≤ B * c) :
    ∃ position pool1 pool2,
      OpenLong feelessAmm ⟨A, B⟩ creator c (n * 10 ^ 18) = .ok (position, pool1) ∧
      position.liabilities = c * (n - 1) ∧
      ForceCloseLong feelessAmm pool1 position = .ok (c * (n - 1), pool2) := by
  have hliab : c * (n * 10 ^ 18 - 10 ^ 18) / 10 ^ 18 = c * (n - 1) := by
    have h : c * (n * 10 ^ 18 - 10 ^ 18) = c * (n - 1) * 10 ^ 18 := by ring
    rw [h, Int.mul_ediv_cancel _ (by norm_num)]
  have hp : c + c * (n - 1) = c * n := by ring
  have hp0 : 0 ≤ c * n := mul_nonneg hc (by linarith)
  obtain ⟨custody, out, pool1, pool2, hswap, hliq, _, hloss⟩ :=
    feelessAmm_round_trip A B (c * n) hA hB hp0
  have hcov : c * (n - 1) ≤ out := by
    have h1 : B * (c * n - out) < B * (c + 1) := by nlinarith
    have h2 : c * n - out < c + 1 := lt_of_mul_lt_mul_left h1 hB.le
    linarith
  refine ⟨⟨creator, c, custody, c * (n - 1), n * 10 ^ 18, 0⟩, pool1, pool2, ?_, rfl, ?_⟩
  · unfold OpenLong
    simp only []
    rw [hliab, hp, hswap]
  · exact ForceCloseLong_of_covered feelessAmm pool1 pool2 _ out hliq hcov

/-- Open and force close against any AMM: when the AMM executes the swap of the principal into
the custody and the sale of that custody on the pool as the swap left it, and this round trip
loses no more than the collateral, then the open succeeds and the force close returns the
borrowed principal. -/
theorem forceCloseLong_of_round_trip {π : Type} (amm : Amm π) (pool pool1 pool2 : π)
    (creator : String) (c L custody proceeds : Int)
    (hswap : amm.swapExactIn pool (c + c * (L - 10 ^ 18) / 10 ^ 18) = .ok (custody, pool1))
    (hliq : amm.liquidate pool1 custody = .ok (proceeds, pool2))
    (hloss : c + c * (L - 10 ^ 18) / 10 ^ 18 - proceeds ≤ c) :
    ∃ position, OpenLong amm pool creator c L = .ok (position, pool1) ∧
      position.liabilities = c * (L - 10 ^ 18) / 10 ^ 18 ∧
      position.custodyAmount = custody ∧
      ForceCloseLong amm pool1 position = .ok (c * (L - 10 ^ 18) / 10 ^ 18, pool2) ∧
      (∀ n : Int, L = n * 10 ^ 18 →
        ForceCloseLong amm pool1 position = .ok (c * (n - 1), pool2)) := by
  have hforce : ForceCloseLong amm pool1
      ⟨creator, c, custody, c * (L - 10 ^ 18) / 10 ^ 18, L, 0⟩
      = .ok (c * (L - 10 ^ 18) / 10 ^ 18, pool2) :=
    ForceCloseLong_of_covered amm pool1 pool2 _ proceeds hliq (by simp only; linarith)
  refine ⟨⟨creator, c, custody, c * (L - 10 ^ 18) / 10 ^ 18, L, 0⟩, ?_, rfl, rfl, hforce, ?_⟩
  · unfold OpenLong
    simp only []
    rw [hswap]
  · intro n hn
    rw [hforce, hn]
    have h : c * (n * 10 ^ 18 - 10 ^ 18) = c * (n - 1) * 10 ^ 18 := by ring
    rw [h, Int.mul_ediv_cancel _ (by norm_num)]

/-- C12: force close right after the open.  Against a two-asset pool without swap or exit fees
and without price movement other than that of the two swaps, with balances `A` and `B`,
opening a long position with collateral `c` at a whole leverage `n >= 1` succeeds and
force-closing it at once succeeds and returns `repayAmount = c * (n - 1)`, the full borrowed
principal, whenever the position is not out of proportion to the pool
(`A + c * n <= B * c`, as for `c = 1000`, `n = 5` and balances 100000 and 100000).  The same
holds against any AMM that executes the swap of the principal into the custody and the sale
of that custody, when this round trip loses no more than the collateral: the repay amount is
the smaller of the liabilities and the proceeds, and the proceeds cover the liabilities. -/
theorem forceCloseLong_repays_principal (creator : String) (c : Int) :
    (∀ A B n : Int, 0 < A → 0 < B → 0 ≤ c → 1 ≤ n → A + c * n ≤ B * c →
      ∃ position pool1 pool2,
        OpenLong feelessAmm ⟨A, B⟩ creator c (n * 10 ^ 18) = .ok (position, pool1) ∧
        position.liabilities = c * (n - 1) ∧
        ForceCloseLong feelessAmm pool1 position = .ok (c * (n - 1), pool2)) ∧
    (∀ (π : Type) (amm : Amm π) (pool pool1 pool2 : π) (L custody proceeds : Int),
      amm.swapExactIn pool (c + c * (L - 10 ^ 18) / 10 ^ 18) = .ok (custody, pool1) →
      amm.liquidate pool1 custody = .ok (proceeds, pool2) →
      c + c * (L - 10 ^ 18) / 10 ^ 18 - proceeds ≤ c →
      ∃ position, OpenLong amm pool creator c L = .ok (position, pool1) ∧
        position.liabilities = c * (L - 10 ^ 18) / 10 ^ 18 ∧
        position.custodyAmount = custody ∧
        ForceCloseLong amm pool1 position = .ok (c * (L - 10 ^ 18) / 10 ^ 18, pool2) ∧
        (∀ n : Int, L = n * 10 ^ 18 →
          ForceCloseLong amm pool1 position = .ok (c * (n - 1), pool2))) :=
  ⟨fun A B n hA hB hc hn hsize => feelessAmm_repays_principal A B c n creator hA hB hc hn hsize,
    fun _ amm pool pool1 pool2 L custody proceeds hswap hliq hloss =>
      forceCloseLong_of_round_trip amm pool pool1 pool2 creator c L custody proceeds hswap hliq
        hloss⟩

/-- Witness of C12: collateral 1000 at leverage 5 against the pool of 100000 and 100000
without fees.  The principal 5000 buys a custody of 4761, which is sold again for 4999; the
position has liabilities 4000 and the force close returns 4000. -/
theorem forceCloseLong_repays_principal_witness :
    OpenLong feelessAmm testPool "elys1owner" 1000 (5 * 10 ^ 18)
      = .ok (⟨"elys1owner", 1000, 4761, 4000, 5 * 10 ^ 18, 0⟩, ⟨105000, 95239⟩) ∧
    feelessAmm.liquidate ⟨105000, 95239⟩ 4761 = .ok (4999, ⟨100001, 100000⟩) ∧
    (∃ position pool1 pool2,
      OpenLong feelessAmm ⟨100000, 100000⟩ "elys1owner" 1000 (5 * 10 ^ 18)
        = .ok (position, pool1) ∧
      position.liabilities = 1000 * (5 - 1) ∧
      ForceCloseLong feelessAmm pool1 position = .ok (1000 * (5 - 1), pool2)) ∧
    ∃ position, OpenLong feelessAmm testPool "elys1owner" 1000 (5 * 10 ^ 18)
        = .ok (position, ⟨105000, 95239⟩) ∧
      ForceCloseLong feelessAmm ⟨105000, 95239⟩ position = .ok (4000, ⟨100001, 100000⟩) :=
  have h := forceCloseLong_repays_principal "elys1owner" 1000
  have h2 := h.2 PoolBalances feelessAmm testPool ⟨105000, 95239⟩ ⟨100001, 100000⟩
    (5 * 10 ^ 18) 4761 4999 (by simp [feelessAmm, testPool]) (by simp [feelessAmm])
    (by norm_num)
  ⟨rfl, rfl,
    h.1 100000 100000 5 (by norm_num) (by norm_num) (by norm_num) (by norm_num) (by norm_num),
    h2.elim fun position hp => ⟨position, hp.1, (hp.2.2.2.2 5 rfl).trans (by norm_num)⟩⟩

end Leveragelp

/-! ## Claims on the stablestake `BeginBlocker` -/

namespace Stablestake

variable {σ ρ Debt : Type}

/-- The loop over the debts logs one call of `UpdateInterestStacked` per debt, in order, and
passes the state from each call to the next. -/
theorem updateDebts_eq (k : Keeper σ ρ Debt) (debts : List Debt) (ctx : σ)
    (log : List (Call ρ Debt)) :
    updateDebts k debts ctx log
      = (debts.foldl (fun s debt => (k.UpdateInterestStacked s debt).2) ctx,
          log ++ debts.map Call.UpdateInterestStacked) := by
  induction debts generalizing ctx log with
  | nil => simp [updateDebts]
  | cons debt rest ih => simp [updateDebts, ih]

/-- The debts of a log that ends with one call of `UpdateInterestStacked` per debt. -/
theorem stackedDebts_map (debts : List Debt) :
    stackedDebts (debts.map (Call.UpdateInterestStacked : Debt → Call ρ Debt)) = debts := by
  induction debts with
  | nil => rfl
  | cons debt rest ih => simp [stackedDebts, ih]

/-- C14: no accrual off the epoch boundary.  In every state in which the epoch position is not
0, `BeginBlocker` leaves the state as it is, so the stored params (with `InterestRate`) and
every debt are unchanged, and its only calls are the two reads of the epoch length and
position: neither `InterestRateComputation` nor `UpdateInterestStacked` is called. -/
theorem beginBlocker_off_epoch (k : Keeper σ ρ Debt) (ctx : σ)
    (h : k.GetEpochPosition ctx (k.GetEpochLength ctx) ≠ 0) :
    (BeginBlocker k ctx).1 = ctx ∧
    k.GetParams (BeginBlocker k ctx).1 = k.GetParams ctx ∧
    k.AllDebts (BeginBlocker k ctx).1 = k.AllDebts ctx ∧
    (BeginBlocker k ctx).2
      = [Call.GetEpochLength, Call.GetEpochPosition (k.GetEpochLength ctx)] ∧
    (∀ call ∈ (BeginBlocker k ctx).2, call.isAccrual = false) := by
  have hb : BeginBlocker k ctx
      = (ctx, [Call.GetEpochLength, Call.GetEpochPosition (k.GetEpochLength ctx)]) := by
    simp [BeginBlocker, h]
  rw [hb]
  refine ⟨rfl, rfl, rfl, rfl, ?_⟩
  intro call hcall
  simp only [List.mem_cons, List.mem_singleton, List.not_mem_nil, or_false] at hcall
  rcases hcall with rfl | rfl <;> rfl

/-- Witness of C14: at height 7 of epochs of ten blocks nothing is touched. -/
theorem beginBlocker_off_epoch_witness :
    (BeginBlocker sampleKeeper (sampleState 7)).1.debts
      = [("elys1a", 4000, 0), ("elys1b", 1000, 0)] ∧
    (BeginBlocker sampleKeeper (sampleState 7)).1.params.InterestRate = 0 ∧
    stackedDebts (BeginBlocker sampleKeeper (sampleState 7)).2 = [] :=
  have h := beginBlocker_off_epoch sampleKeeper (sampleState 7) (by decide)
  ⟨congrArg SampleState.debts h.1, congrArg (fun s => s.params.InterestRate) h.1,
    congrArg stackedDebts h.2.2.2.1⟩

/-- C15: at an epoch boundary every debt is processed.  When the epoch position is 0,
`BeginBlocker` stores the params with the computed rate, reads the debts `AllDebts` returns in
that state, and calls `UpdateInterestStacked` exactly once for each of them, in the returned
order, each call working on the state the one before left; whatever a call returns or does,
the calls for the later debts are made. -/
theorem beginBlocker_on_epoch (k : Keeper σ ρ Debt) (ctx : σ)
    (h : k.GetEpochPosition ctx (k.GetEpochLength ctx) = 0) :
    stackedDebts (BeginBlocker k ctx).2
      = k.AllDebts (k.SetParams ctx
          { k.GetParams ctx with InterestRate := k.InterestRateComputation ctx }) ∧
    (BeginBlocker k ctx).2
      = [Call.GetEpochLength, Call.GetEpochPosition (k.GetEpochLength ctx), Call.GetParams,
          Call.InterestRateComputation,
          Call.SetParams { k.GetParams ctx with InterestRate := k.InterestRateComputation ctx },
          Call.AllDebts]
        ++ (k.AllDebts (k.SetParams ctx
            { k.GetParams ctx with InterestRate := k.InterestRateComputation ctx })).map
          Call.UpdateInterestStacked ∧
    (BeginBlocker k ctx).1
      = (k.AllDebts (k.SetParams ctx
            { k.GetParams ctx with InterestRate := k.InterestRateComputation ctx })).foldl
          (fun s debt => (k.UpdateInterestStacked s debt).2)
          (k.SetParams ctx
            { k.GetParams ctx with InterestRate := k.InterestRateComputation ctx }) := by
  have hb : BeginBlocker k ctx
      = updateDebts k (k.AllDebts (k.SetParams ctx
            { k.GetParams ctx with InterestRate := k.InterestRateComputation ctx }))
          (k.SetParams ctx
            { k.GetParams ctx with InterestRate := k.InterestRateComputation ctx })
          [Call.GetEpochLength, Call.GetEpochPosition (k.GetEpochLength ctx), Call.GetParams,
            Call.InterestRateComputation,
            Call.SetParams
              { k.GetParams ctx with InterestRate := k.InterestRateComputation ctx },
            Call.AllDebts] := by
    simp [BeginBlocker, h]
  rw [hb, updateDebts_eq]
  refine ⟨?_, rfl, rfl⟩
  simp only [List.cons_append, List.nil_append, stackedDebts]
  exact stackedDebts_map _

/-- Witness of C15: at height 20 both debts are processed, in order, at the new rate. -/
theorem beginBlocker_on_epoch_witness :
    stackedDebts (BeginBlocker sampleKeeper (sampleState 20)).2
      = [("elys1a", 4000, 0), ("elys1b", 1000, 0)] ∧
    (BeginBlocker sampleKeeper (sampleState 20)).1.debts
      = [("elys1a", 4000, 480), ("elys1b", 1000, 120)] :=
  ⟨(beginBlocker_on_epoch sampleKeeper (sampleState 20) (by decide)).1, by decide⟩

end Stablestake

/-! ## Claims on the incentive keeper -/

namespace Incentive

variable {Pool : Type}

/-- The iteration with a callback that never asks to stop visits every pool. -/
theorem IterateLiquidityPools_sum (share : Pool → Int) (fn : Pool → Int → Bool × Int)
    (hfn : ∀ p acc, fn p acc = (false, acc + share p)) (pools : List Pool) (acc : Int) :
    IterateLiquidityPools fn pools acc = acc + (pools.map share).sum := by
  induction pools generalizing acc with
  | nil => simp [IterateLiquidityPools]
  | cons p rest ih =>
    rw [IterateLiquidityPools, hfn]
    simp only [Bool.false_eq_true, if_false, List.map_cons, List.sum_cons]
    rw [ih]
    ring

/-- C16: the proxy TVL is the sum over all liquidity pools of the TVL of the pool times the
multiplier of its pool info (a decimal product), where a pool whose TVL cannot be computed or
that has no pool info counts zero and does not stop the iteration; for three pools with TVL
20, 30, 40 and multipliers 0.3, 0.5, 1.0 the result is 61, and it stays 61 with a pool without
TVL and a pool without pool info put before and between them. -/
theorem calculateProxyTVL_sum (k : Keeper Pool) (ctx : Ctx) :
    CalculateProxyTVL k ctx = ((k.pools ctx).map (proxyShare k ctx)).sum ∧
    CalculateProxyTVL
        (sampleKeeper [(1, some (20 * 10 ^ 18)), (2, some (30 * 10 ^ 18)),
          (3, some (40 * 10 ^ 18))])
        ⟨paramsOf threePoolInfos, 0⟩ = 61 * 10 ^ 18 ∧
    CalculateProxyTVL
        (sampleKeeper [(7, none), (1, some (20 * 10 ^ 18)), (9, some (50 * 10 ^ 18)),
          (2, some (30 * 10 ^ 18)), (3, some (40 * 10 ^ 18))])
        ⟨paramsOf threePoolInfos, 0⟩ = 61 * 10 ^ 18 := by
  refine ⟨?_, by decide, by decide⟩
  unfold CalculateProxyTVL
  rw [IterateLiquidityPools_sum (proxyShare k ctx)]
  · simp
  · intro p acc
    unfold proxyShare
    cases k.TVL ctx p with
    | error e => simp
    | ok tvl =>
      simp only []
      rcases GetPoolInfo ctx (k.GetPoolId p) with ⟨poolInfo, found⟩
      cases found <;> simp

/-- `GetProperIncentiveParam` never returns `found = true`. -/
theorem GetProperIncentiveParam_found (ctx : Ctx) (epochIdentifier : String) :
    (GetProperIncentiveParam ctx epochIdentifier).found = false := by
  unfold GetProperIncentiveParam
  simp only []
  split
  · rfl
  · rfl
  · split_ifs <;> rfl

/-- C17 at a concrete input: the params hold one stake incentive and one LP incentive, both of
ten daily epochs starting at time 1000 with no epoch passed, the identifier is `day` and the
block time is 5000, after the start; neither incentive reaches its `NumEpochs`.  The call
returns `found = false`, with copies of the two incentives whose `CurrentEpoch` is 1. -/
theorem getProperIncentiveParam_active_not_found :
    incentiveCtx.params.StakeIncentives = [dailyIncentive 9000] ∧
    incentiveCtx.params.LpIncentives = [dailyIncentive 7000] ∧
    (GetProperIncentiveParam incentiveCtx "day").found = false ∧
    (GetProperIncentiveParam incentiveCtx "day").stakeIncentive
      = { dailyIncentive 9000 with CurrentEpoch := 1 } ∧
    (GetProperIncentiveParam incentiveCtx "day").lpIncentive
      = { dailyIncentive 7000 with CurrentEpoch := 1 } := by
  refine ⟨rfl, rfl, ?_, ?_, ?_⟩ <;> decide

/-- The flag of `findPoolInfo` says whether a pool info with the pool id exists. -/
theorem findPoolInfo_found_iff (poolInfos : List PoolInfo) (poolId : Nat) :
    (findPoolInfo poolInfos poolId).2 = true ↔ ∃ ps ∈ poolInfos, ps.PoolId = poolId := by
  induction poolInfos with
  | nil => simp [findPoolInfo]
  | cons ps rest ih =>
    rw [findPoolInfo]
    by_cases h : ps.PoolId = poolId
    · simp [h]
    · simp [h, ih]

/-- After a list without the pool id, `findPoolInfo` finds the pool info put at its end. -/
theorem findPoolInfo_append_new (poolInfos : List PoolInfo) (poolInfo : PoolInfo)
    (h : ∀ ps ∈ poolInfos, ps.PoolId ≠ poolInfo.PoolId) :
    findPoolInfo (poolInfos ++ [poolInfo]) poolInfo.PoolId = (poolInfo, true) := by
  induction poolInfos with
  | nil => simp [findPoolInfo]
  | cons ps rest ih =>
    have h1 : ps.PoolId ≠ poolInfo.PoolId := h ps (List.mem_cons_self _ _)
    have h2 : ∀ q ∈ rest, q.PoolId ≠ poolInfo.PoolId :=
      fun q hq => h q (List.mem_cons_of_mem _ hq)
    simp only [List.cons_append]
    rw [findPoolInfo, if_neg h1]
    exact ih h2

/-- `InitPoolMultiplier` when a pool info with the pool id exists. -/
theorem InitPoolMultiplier_of_present (f : Nat → String) (ctx : Ctx) (poolId : Nat)
    (h : ∃ ps ∈ ctx.params.PoolInfos, ps.PoolId = poolId) :
    InitPoolMultiplier f ctx poolId = (true, ctx) := by
  have hany : ctx.params.PoolInfos.any (fun ps => decide (ps.PoolId = poolId)) = true := by
    rw [List.any_eq_true]
    obtain ⟨ps, hps, hid⟩ := h
    exact ⟨ps, hps, by simp [hid]⟩
  simp [InitPoolMultiplier, GetParams, hany]

/-- `InitPoolMultiplier` when no pool info with the pool id exists. -/
theorem InitPoolMultiplier_of_absent (f : Nat → String) (ctx : Ctx) (poolId : Nat)
    (h : ∀ ps ∈ ctx.params.PoolInfos, ps.PoolId ≠ poolId) :
    InitPoolMultiplier f ctx poolId
      = (true, { ctx with
          params := { ctx.params with
            PoolInfos := ctx.params.PoolInfos ++ [⟨poolId, f poolId, 10 ^ 18⟩] } }) := by
  have hany : ctx.params.PoolInfos.any (fun ps => decide (ps.PoolId = poolId)) = false := by
    rw [List.any_eq_false]
    intro ps hps
    simpa using h ps hps
  simp [InitPoolMultiplier, GetParams, SetParams, hany]

/-- C18: `InitPoolMultiplier` creates the pool information at most once per pool.  It always
returns true.  If a pool info with the pool id exists, the context, and so the stored params,
is unchanged.  Otherwise exactly one pool info, with that pool id, the revenue address of the
pool as reward wallet and multiplier 1, is put at the end of the stored pool infos, the
existing ones and everything else staying as they were, and it is the one that `GetPoolInfo`
finds.  In both cases `GetPoolInfo` finds a pool info for the pool id afterwards, and a second
call changes nothing more. -/
theorem initPoolMultiplier_once (f : Nat → String) (ctx : Ctx) (poolId : Nat) :
    (InitPoolMultiplier f ctx poolId).1 = true ∧
    ((∃ ps ∈ ctx.params.PoolInfos, ps.PoolId = poolId) →
      (InitPoolMultiplier f ctx poolId).2 = ctx) ∧
    ((∀ ps ∈ ctx.params.PoolInfos, ps.PoolId ≠ poolId) →
      (InitPoolMultiplier f ctx poolId).2
        = { ctx with
            params := { ctx.params with
              PoolInfos := ctx.params.PoolInfos ++ [⟨poolId, f poolId, 10 ^ 18⟩] } } ∧
      GetPoolInfo (InitPoolMultiplier f ctx poolId).2 poolId
        = (⟨poolId, f poolId, 10 ^ 18⟩, true)) ∧
    (GetPoolInfo (InitPoolMultiplier f ctx poolId).2 poolId).2 = true ∧
    InitPoolMultiplier f (InitPoolMultiplier f ctx poolId).2 poolId
      = (true, (InitPoolMultiplier f ctx poolId).2) := by
  by_cases h : ∃ ps ∈ ctx.params.PoolInfos, ps.PoolId = poolId
  · have hi := InitPoolMultiplier_of_present f ctx poolId h
    rw [hi]
    refine ⟨rfl, fun _ => rfl, ?_, ?_, hi⟩
    · intro habs
      obtain ⟨ps, hps, hid⟩ := h
      exact absurd hid (habs ps hps)
    · exact (findPoolInfo_found_iff _ _).2 h
  · have habs : ∀ ps ∈ ctx.params.PoolInfos, ps.PoolId ≠ poolId :=
      fun ps hps hid => h ⟨ps, hps, hid⟩
    have hi := InitPoolMultiplier_of_absent f ctx poolId habs
    have hfind : GetPoolInfo { ctx with
          params := { ctx.params with
            PoolInfos := ctx.params.PoolInfos ++ [⟨poolId, f poolId, 10 ^ 18⟩] } } poolId
        = (⟨poolId, f poolId, 10 ^ 18⟩, true) :=
      findPoolInfo_append_new ctx.params.PoolInfos ⟨poolId, f poolId, 10 ^ 18⟩ habs
    rw [hi]
    refine ⟨rfl, fun hex => absurd hex h, fun _ => ⟨rfl, hfind⟩, ?_, ?_⟩
    · rw [hfind]
    · exact InitPoolMultiplier_of_present f _ poolId
        ⟨⟨poolId, f poolId, 10 ^ 18⟩, by simp, rfl⟩

/-- Witness of C18: pool 4 is new to the three pool infos and is put at their end; pool 2 is
known and nothing changes. -/
theorem initPoolMultiplier_once_witness :
    (InitPoolMultiplier sampleRevenueAddress ⟨paramsOf threePoolInfos, 0⟩ 4).2.params.PoolInfos
      = threePoolInfos ++ [⟨4, "elys1revenue4", 10 ^ 18⟩] ∧
    (InitPoolMultiplier sampleRevenueAddress ⟨paramsOf threePoolInfos, 0⟩ 2).2
      = ⟨paramsOf threePoolInfos, 0⟩ :=
  have h := initPoolMultiplier_once sampleRevenueAddress ⟨paramsOf threePoolInfos, 0⟩
  ⟨congrArg (fun c => c.params.PoolInfos) ((h 4).2.2.1 (by decide)).1,
    (h 2).2.1 (by decide)⟩

/-- No entry with the pool id: there is no last multiplier. -/
theorem lastMultiplier_of_absent (pms : List PoolMultipliers) (poolId : Nat)
    (h : ∀ pm ∈ pms, pm.PoolId ≠ poolId) : lastMultiplier pms poolId = none := by
  induction pms with
  | nil => rfl
  | cons pm rest ih =>
    rw [lastMultiplier, ih (fun q hq => h q (List.mem_cons_of_mem _ hq))]
    simp [h pm (List.mem_cons_self _ _)]

/-- The last multiplier is the one of the entry with the pool id after which no entry has it. -/
theorem lastMultiplier_of_last (pre post : List PoolMultipliers) (pm : PoolMultipliers)
    (poolId : Nat) (hpm : pm.PoolId = poolId) (hpost : ∀ q ∈ post, q.PoolId ≠ poolId) :
    lastMultiplier (pre ++ pm :: post) poolId = some pm.Multiplier := by
  induction pre with
  | nil =>
    simp only [List.nil_append]
    rw [lastMultiplier, lastMultiplier_of_absent post poolId hpost]
    simp [hpm]
  | cons q rest ih =>
    simp only [List.cons_append]
    rw [lastMultiplier, ih]

/-- The loops of `UpdatePoolMultipliers` give every pool info the last multiplier listed for its
pool id. -/
theorem foldl_applyPoolMultiplier (pms : List PoolMultipliers) (poolInfos : List PoolInfo) :
    pms.foldl (fun infos pm => applyPoolMultiplier pm infos) poolInfos
      = poolInfos.map (updatedPoolInfo pms) := by
  induction pms generalizing poolInfos with
  | nil =>
    simp only [List.foldl_nil]
    have hid : updatedPoolInfo [] = id := funext fun p => rfl
    rw [hid, List.map_id]
  | cons pm rest ih =>
    simp only [List.foldl_cons]
    rw [ih, applyPoolMultiplier, List.map_map]
    apply List.map_congr_left
    intro p _
    simp only [Function.comp]
    by_cases hp : p.PoolId = pm.PoolId
    · simp only [hp, if_true, updatedPoolInfo, lastMultiplier]
      cases hl : lastMultiplier rest pm.PoolId with
      | none => simp [hp]
      | some m => simp
    · simp only [hp, if_false, updatedPoolInfo, lastMultiplier]
      cases hl : lastMultiplier rest p.PoolId with
      | none => simp [Ne.symm hp]
      | some m => simp

/-- An update changes no pool id. -/
theorem updatedPoolInfo_PoolId (pms : List PoolMultipliers) (p : PoolInfo) :
    (updatedPoolInfo pms p).PoolId = p.PoolId := by
  unfold updatedPoolInfo
  cases lastMultiplier pms p.PoolId <;> rfl

/-- C19: `UpdatePoolMultipliers`.  With a non-empty list it returns true and stores the params
in which every pool info is updated, nothing else being changed: a pool info whose pool id is
in the list has the multiplier of the last list entry with that id, a pool info whose pool id
is not in the list is unchanged, and the sequence of the stored pool ids is the same, so that
ids that are not stored are ignored.  With an empty list it returns false and leaves the
context as it was. -/
theorem updatePoolMultipliers_last_wins (ctx : Ctx) (pms : List PoolMultipliers) :
    (pms ≠ [] →
      (UpdatePoolMultipliers ctx pms).1 = true ∧
      (UpdatePoolMultipliers ctx pms).2
        = { ctx with
            params := { ctx.params with
              PoolInfos := ctx.params.PoolInfos.map (updatedPoolInfo pms) } } ∧
      (UpdatePoolMultipliers ctx pms).2.params.PoolInfos.map (fun p => p.PoolId)
        = ctx.params.PoolInfos.map (fun p => p.PoolId)) ∧
    (pms = [] → UpdatePoolMultipliers ctx pms = (false, ctx)) ∧
    (∀ p : PoolInfo, (∀ pm ∈ pms, pm.PoolId ≠ p.PoolId) → updatedPoolInfo pms p = p) ∧
    (∀ (p : PoolInfo) (pre post : List PoolMultipliers) (pm : PoolMultipliers),
      pms = pre ++ pm :: post → pm.PoolId = p.PoolId → (∀ q ∈ post, q.PoolId ≠ p.PoolId) →
      updatedPoolInfo pms p = { p with Multiplier := pm.Multiplier }) := by
  refine ⟨?_, ?_, ?_, ?_⟩
  · intro hne
    have hlen : ¬ pms.length < 1 := by
      cases pms with
      | nil => exact absurd rfl hne
      | cons pm rest => simp
    have hu : UpdatePoolMultipliers ctx pms
        = (true, { ctx with
            params := { ctx.params with
              PoolInfos := ctx.params.PoolInfos.map (updatedPoolInfo pms) } }) := by
      unfold UpdatePoolMultipliers
      rw [if_neg hlen]
      simp only [GetParams, SetParams, foldl_applyPoolMultiplier]
    rw [hu]
    refine ⟨rfl, rfl, ?_⟩
    simp only [List.map_map]
    apply List.map_congr_left
    intro p _
    exact updatedPoolInfo_PoolId pms p
  · intro hnil
    rw [hnil]
    rfl
  · intro p habs
    unfold updatedPoolInfo
    rw [lastMultiplier_of_absent pms p.PoolId habs]
  · intro p pre post pm hpms hpm hpost
    unfold updatedPoolInfo
    rw [hpms, lastMultiplier_of_last pre post pm p.PoolId hpm hpost]

/-- Witness of C19: pool 2 is listed twice and gets the multiplier listed last, pool 9 is not
stored and is ignored, pools 1 and 3 are not listed and keep their multipliers. -/
theorem updatePoolMultipliers_last_wins_witness :
    (UpdatePoolMultipliers ⟨paramsOf threePoolInfos, 0⟩
        [⟨2, 2 * 10 ^ 18⟩, ⟨9, 4 * 10 ^ 18⟩, ⟨2, 3 * 10 ^ 18⟩]).2.params.PoolInfos
      = [⟨1, "wallet1", 300000000000000000⟩, ⟨2, "wallet2", 3 * 10 ^ 18⟩,
          ⟨3, "wallet3", 1000000000000000000⟩] :=
  (congrArg (fun c => c.params.PoolInfos)
    ((updatePoolMultipliers_last_wins ⟨paramsOf threePoolInfos, 0⟩
      [⟨2, 2 * 10 ^ 18⟩, ⟨9, 4 * 10 ^ 18⟩, ⟨2, 3 * 10 ^ 18⟩]).1 (by decide)).2.1).trans
    (by decide)

end Incentive

/-! ## Claims on the `update-pool-info` command -/

namespace IncentiveCli

open Incentive

/-- A split has at least one piece. -/
theorem splitComma_ne_nil (cs : List Char) : splitComma cs ≠ [] := by
  cases cs with
  | nil => simp [splitComma]
  | cons c cs =>
    rw [splitComma]
    by_cases hc : c = ','
    · simp [hc]
    · rw [if_neg hc]
      cases splitComma cs <;> simp

/-- The loop on two lists of the same length succeeds exactly when every id and every
multiplier is parsed, and then appends the pairs, position by position. -/
theorem parseLoop_ok_iff (PU : String → Except Error Nat) (ND : String → Except Error Int)
    (ids ms : List String) (hlen : ids.length = ms.length)
    (acc r : List PoolMultipliers) :
    parseLoop PU ND ids ms acc = .ok r ↔
      ∃ pairs, r = acc ++ pairs ∧
        List.Forall₂ (fun s pm => PU s = .ok pm.PoolId) ids pairs ∧
        List.Forall₂ (fun s pm => ND s = .ok pm.Multiplier) ms pairs := by
  induction ids generalizing ms acc with
  | nil =>
    cases ms with
    | nil =>
      rw [parseLoop]
      constructor
      · intro h
        injection h with h
        exact ⟨[], by simp [h], List.Forall₂.nil, List.Forall₂.nil⟩
      · rintro ⟨pairs, hr, hids, _⟩
        cases hids
        simp [hr]
    | cons m ms => simp at hlen
  | cons id ids ih =>
    cases ms with
    | nil => simp at hlen
    | cons m ms =>
      have hlen1 : ids.length = ms.length := by simpa using hlen
      rw [parseLoop]
      cases hid : PU id with
      | error e =>
        simp only []
        constructor
        · intro h; cases h
        · rintro ⟨pairs, _, hids, _⟩
          cases hids with
          | cons h1 _ => rw [hid] at h1; cases h1
      | ok poolId =>
        simp only []
        cases hm : ND m with
        | error e =>
          simp only []
          constructor
          · intro h; cases h
          · rintro ⟨pairs, _, _, hms⟩
            cases hms with
            | cons h1 _ => rw [hm] at h1; cases h1
        | ok multiplier =>
          simp only []
          rw [ih ms hlen1]
          constructor
          · rintro ⟨pairs, hr, hids, hms⟩
            refine ⟨⟨poolId, multiplier⟩ :: pairs, by simp [hr], ?_, ?_⟩
            · exact List.Forall₂.cons hid hids
            · exact List.Forall₂.cons hm hms
          · rintro ⟨pairs, hr, hids, hms⟩
            cases hids with
            | @cons _ pm _ rest h1 hrest =>
              cases hms with
              | cons h2 hrest2 =>
                rw [hid] at h1
                rw [hm] at h2
                injection h1 with h1
                injection h2 with h2
                refine ⟨rest, ?_, hrest, hrest2⟩
                have hpm : pm = ⟨poolId, multiplier⟩ := by
                  cases pm
                  simp only [PoolMultipliers.mk.injEq]
                  exact ⟨h1.symm, h2.symm⟩
                simp [hr, hpm]

/-- The argument parsing succeeds exactly when the two comma-separated lists have the same
length, every id is parsed by `ParseUint` and every multiplier by `NewDecFromStr`; the result
pairs the ids with the multipliers position by position. -/
theorem parsePoolMultipliers_ok_iff (PU : String → Except Error Nat)
    (ND : String → Except Error Int) (argPoolIds argMultipliers : String)
    (r : List PoolMultipliers) :
    parsePoolMultipliers PU ND argPoolIds argMultipliers = .ok r ↔
      List.Forall₂ (fun s pm => PU s = .ok pm.PoolId) (Split argPoolIds) r ∧
      List.Forall₂ (fun s pm => ND s = .ok pm.Multiplier) (Split argMultipliers) r := by
  unfold parsePoolMultipliers
  simp only []
  by_cases hlen : (Split argPoolIds).length = (Split argMultipliers).length
  · have hpos : ¬ (Split argPoolIds).length < 1 := by
      unfold Split
      cases h : splitComma argPoolIds.toList with
      | nil => exact absurd h (splitComma_ne_nil _)
      | cons x xs => simp
    rw [if_neg (by simp only [not_or, not_not]; exact ⟨hpos, hlen⟩)]
    rw [parseLoop_ok_iff PU ND _ _ hlen]
    simp
  · rw [if_pos (Or.inr hlen)]
    constructor
    · intro h; cases h
    · rintro ⟨h1, h2⟩
      exact absurd (h1.length_eq.trans h2.length_eq.symm) hlen

/-- C20 at the documented example: for `update-pool-info 1,2,3,4, 1,1,2,2` the pool-id argument
`1,2,3,4,` splits into five pieces, the last one empty, and the multiplier argument `1,1,2,2`
into four, so the argument parsing returns the error `invalid parameter`; without the comma at
the end of the first argument it gives the four pool multipliers (1,1), (2,1), (3,2), (4,2). -/
theorem parsePoolMultipliers_documented_example :
    Split "1,2,3,4," = ["1", "2", "3", "4", ""] ∧
    Split "1,1,2,2" = ["1", "1", "2", "2"] ∧
    parsePoolMultipliers ParseUint NewDecFromStr "1,2,3,4," "1,1,2,2"
      = .error errInvalidParameter ∧
    parsePoolMultipliers ParseUint NewDecFromStr "1,2,3,4" "1,1,2,2"
      = .ok [⟨1, 10 ^ 18⟩, ⟨2, 10 ^ 18⟩, ⟨3, 2 * 10 ^ 18⟩, ⟨4, 2 * 10 ^ 18⟩] :=
  ⟨rfl, rfl, rfl, rfl⟩

end IncentiveCli

/-! ## Claims on the persistence of `GetProperIncentiveParam` -/

namespace Incentive

/-- `GetProperIncentiveParam` leaves the context, and so the stored params, as it was. -/
theorem GetProperIncentiveParam_ctx (ctx : Ctx) (epochIdentifier : String) :
    (GetProperIncentiveParam ctx epochIdentifier).ctx = ctx := by
  unfold GetProperIncentiveParam
  simp only []
  split
  · rfl
  · rfl
  · split_ifs <;> rfl

/-- C22 at two concrete inputs.  With one stake and one LP incentive of ten daily epochs, the
identifier matching and the start time reached, the returned copies have `CurrentEpoch` 1 but
the stored first stake and LP incentives still have `CurrentEpoch` 0 after the call.  With a
first stake incentive that reaches its `NumEpochs` and a second one queued, the local variable
`params` loses the finished incentive, but the stored list still holds both. -/
theorem getProperIncentiveParam_not_persisted :
    (GetProperIncentiveParam incentiveCtx "day").stakeIncentive.CurrentEpoch = 1 ∧
    (GetProperIncentiveParam incentiveCtx "day").lpIncentive.CurrentEpoch = 1 ∧
    (GetProperIncentiveParam incentiveCtx "day").ctx.params.StakeIncentives.map
        (fun i => i.CurrentEpoch) = [0] ∧
    (GetProperIncentiveParam incentiveCtx "day").ctx.params.LpIncentives.map
        (fun i => i.CurrentEpoch) = [0] ∧
    (GetProperIncentiveParam finishingCtx "day").localParams.StakeIncentives
      = [dailyIncentive 8000] ∧
    (GetProperIncentiveParam finishingCtx "day").ctx.params.StakeIncentives
      = [{ dailyIncentive 9000 with NumEpochs := 1 }, dailyIncentive 8000] := by
  refine ⟨?_, ?_, ?_, ?_, ?_, ?_⟩ <;> decide

end Incentive

/-! ## Claims on the uncommitted token balances -/

namespace Incentive

/-- When no entry has the denomination, the entry put at the end is the one found. -/
theorem findUncommitted_append_new (tokens : List UncommittedTokens) (denom : String) (a : Int)
    (h : findUncommitted tokens denom = none) :
    findUncommitted (tokens ++ [UncommittedTokens.mk denom a]) denom = some (tokens.length, UncommittedTokens.mk denom a) ∧
    (tokens ++ [UncommittedTokens.mk denom a]).filter (fun t => decide (t.Denom ≠ denom))
      = tokens.filter (fun t => decide (t.Denom ≠ denom)) := by
  induction tokens with
  | nil => simp [findUncommitted]
  | cons x rest ih =>
    rw [findUncommitted] at h
    by_cases hx : x.Denom = denom
    · simp [hx] at h
    · rw [if_neg hx] at h
      have hrest : findUncommitted rest denom = none := by
        cases hr : findUncommitted rest denom with
        | none => rfl
        | some r => rw [hr] at h; simp at h
      obtain ⟨ih1, ih2⟩ := ih hrest
      constructor
      · simp only [List.cons_append, List.length_cons]
        rw [findUncommitted, if_neg hx, ih1]
        rfl
      · simp only [List.cons_append, List.filter_cons, ih2]

/-- When the entry `t` at position `i` is the first with the denomination, replacing its amount
keeps it the first with the denomination, and changes neither the denominations nor the
entries of the other denominations. -/
theorem findUncommitted_set (tokens : List UncommittedTokens) (denom : String) (a : Int)
    (i : Nat) (t : UncommittedTokens) (h : findUncommitted tokens denom = some (i, t)) :
    findUncommitted (tokens.set i { t with Amount := a }) denom
      = some (i, { t with Amount := a }) ∧
    (tokens.set i { t with Amount := a }).map (fun u => u.Denom)
      = tokens.map (fun u => u.Denom) ∧
    (tokens.set i { t with Amount := a }).filter (fun u => decide (u.Denom ≠ denom))
      = tokens.filter (fun u => decide (u.Denom ≠ denom)) := by
  induction tokens generalizing i with
  | nil => simp [findUncommitted] at h
  | cons x rest ih =>
    rw [findUncommitted] at h
    by_cases hx : x.Denom = denom
    · rw [if_pos hx] at h
      injection h with h
      injection h with h0 ht
      subst h0
      subst ht
      refine ⟨?_, ?_, ?_⟩
      · simp [findUncommitted, hx]
      · simp
      · simp [List.filter_cons, hx]
    · rw [if_neg hx] at h
      cases hr : findUncommitted rest denom with
      | none => rw [hr] at h; simp at h
      | some r =>
        rw [hr] at h
        simp only [Option.map_some'] at h
        injection h with h
        injection h with hi ht
        subst hi
        subst ht
        obtain ⟨ih1, ih2, ih3⟩ := ih r.1 (by rw [hr])
        refine ⟨?_, ?_, ?_⟩
        · simp only [List.set_cons_succ]
          rw [findUncommitted, if_neg hx, ih1]
          rfl
        · simp only [List.set_cons_succ, List.map_cons, ih2]
        · simp only [List.set_cons_succ, List.filter_cons, ih3]

/-- C24: `UpdateTokensCommitment` updates the uncommitted balance of one denomination.  After
the call the uncommitted amount of the denomination is its amount before, zero if there was no
entry, plus the new amount; when there was no entry, exactly one entry is put at the end; when
there was one, no entry is added and the denominations stay as they were; the entries of all
other denominations and their order are unchanged, and so are the creator and the committed
tokens. -/
theorem updateTokensCommitment_balance (commitments : Commitments) (a : Int) (denom : String) :
    uncommittedAmount (UpdateTokensCommitment commitments a denom) denom
      = uncommittedAmount commitments denom + a ∧
    (GetUncommittedTokensForDenom commitments denom = none →
      (UpdateTokensCommitment commitments a denom).UncommittedTokens
        = commitments.UncommittedTokens ++ [UncommittedTokens.mk denom a]) ∧
    (GetUncommittedTokensForDenom commitments denom ≠ none →
      (UpdateTokensCommitment commitments a denom).UncommittedTokens.map (fun u => u.Denom)
        = commitments.UncommittedTokens.map (fun u => u.Denom)) ∧
    (UpdateTokensCommitment commitments a denom).UncommittedTokens.filter
        (fun u => decide (u.Denom ≠ denom))
      = commitments.UncommittedTokens.filter (fun u => decide (u.Denom ≠ denom)) ∧
    (UpdateTokensCommitment commitments a denom).Creator = commitments.Creator ∧
    (UpdateTokensCommitment commitments a denom).CommittedTokens
      = commitments.CommittedTokens := by
  cases hf : findUncommitted commitments.UncommittedTokens denom with
  | none =>
    have hu : UpdateTokensCommitment commitments a denom
        = { commitments with
            UncommittedTokens := commitments.UncommittedTokens ++ [UncommittedTokens.mk denom a] } := by
      simp [UpdateTokensCommitment, GetUncommittedTokensForDenom, hf]
    obtain ⟨h1, h2⟩ := findUncommitted_append_new commitments.UncommittedTokens denom a hf
    rw [hu]
    refine ⟨?_, fun _ => rfl, ?_, h2, rfl, rfl⟩
    · simp [uncommittedAmount, GetUncommittedTokensForDenom, hf, h1]
    · intro hne
      exact absurd hf hne
  | some r =>
    obtain ⟨i, t⟩ := r
    have hu : UpdateTokensCommitment commitments a denom
        = { commitments with
            UncommittedTokens := commitments.UncommittedTokens.set i
              { t with Amount := t.Amount + a } } := by
      simp [UpdateTokensCommitment, GetUncommittedTokensForDenom, hf]
    obtain ⟨h1, h2, h3⟩ :=
      findUncommitted_set commitments.UncommittedTokens denom (t.Amount + a) i t hf
    rw [hu]
    refine ⟨?_, ?_, fun _ => h2, h3, rfl, rfl⟩
    · simp [uncommittedAmount, GetUncommittedTokensForDenom, hf, h1]
    · intro hnone
      simp only [GetUncommittedTokensForDenom] at hnone
      rw [hf] at hnone
      cases hnone

/-- Witness of C24: 5 more of `uusdc`, which has an entry, and 5 of `uatom`, which has none. -/
theorem updateTokensCommitment_balance_witness :
    (UpdateTokensCommitment ownerCommitments 5 "uusdc").UncommittedTokens
      = [⟨"ueden", 7⟩, ⟨"uusdc", 7⟩] ∧
    (UpdateTokensCommitment ownerCommitments 5 "uatom").UncommittedTokens
      = [⟨"ueden", 7⟩, ⟨"uusdc", 2⟩, ⟨"uatom", 5⟩] :=
  ⟨by decide,
    (updateTokensCommitment_balance ownerCommitments 5 "uatom").2.1 (by decide)⟩

/-- What the commitment callback does for an owner with a valid account address: the three
staker rewards are added to `totalEdenGiven` and the LP reward to `totalEdenGivenLP`, but the
Eden amount passed on to `UpdateCommitments` is the reward from the Eden Boost committed plus
the LP reward minus the commission, since `newUncommittedEdenTokens` is assigned anew by each
reward computation. -/
theorem commitmentCallback_of_valid {σ : Type} (k : RewardKeeper σ) (d : Denoms)
    (epochIdentifier : String) (e : EpochAmounts) (commitments : Commitments) (t : Totals)
    (ctx : σ) (hvalid : k.validAddress commitments.Creator = true) :
    (commitmentCallback k d epochIdentifier e commitments (t, ctx)).1.totalEdenGiven
      = t.totalEdenGiven
        + (k.CalculateRewardsForStakersByElysStaked ctx
            (k.CalculateDelegatedAmount ctx commitments.Creator)
            e.edenAmountPerEpochStakers e.dexRevenueStakersAmt).1
        + (k.CalculateRewardsForStakersByCommitted ctx
            (GetCommittedAmountForDenom commitments d.Eden)
            e.edenAmountPerEpochStakers e.dexRevenueStakersAmt).1
        + (k.CalculateRewardsForStakersByCommitted ctx
            (GetCommittedAmountForDenom commitments d.EdenB)
            e.edenAmountPerEpochStakers e.dexRevenueStakersAmt).1 ∧
    (commitmentCallback k d epochIdentifier e commitments (t, ctx)).1.totalEdenGivenLP
      = t.totalEdenGivenLP
        + (k.CalculateRewardsForLPs ctx e.totalProxyTVL commitments
            e.edenAmountPerEpochLPs e.gasFeesLPsAmt).1 ∧
    (commitmentCallback k d epochIdentifier e commitments (t, ctx)).2
      = UpdateCommitments k d
          (k.GiveCommissionToValidators ctx commitments.Creator
            (k.CalculateDelegatedAmount ctx commitments.Creator)
            ((k.CalculateRewardsForStakersByCommitted ctx
                (GetCommittedAmountForDenom commitments d.EdenB)
                e.edenAmountPerEpochStakers e.dexRevenueStakersAmt).1
              + (k.CalculateRewardsForLPs ctx e.totalProxyTVL commitments
                e.edenAmountPerEpochLPs e.gasFeesLPsAmt).1)
            (k.CalculateRewardsForStakersByElysStaked ctx
              (k.CalculateDelegatedAmount ctx commitments.Creator)
              e.edenAmountPerEpochStakers e.dexRevenueStakersAmt).2.2).2
          commitments
          ((k.CalculateRewardsForStakersByCommitted ctx
                (GetCommittedAmountForDenom commitments d.EdenB)
                e.edenAmountPerEpochStakers e.dexRevenueStakersAmt).1
              + (k.CalculateRewardsForLPs ctx e.totalProxyTVL commitments
                e.edenAmountPerEpochLPs e.gasFeesLPsAmt).1
              - (k.GiveCommissionToValidators ctx commitments.Creator
                  (k.CalculateDelegatedAmount ctx commitments.Creator)
                  ((k.CalculateRewardsForStakersByCommitted ctx
                      (GetCommittedAmountForDenom commitments d.EdenB)
                      e.edenAmountPerEpochStakers e.dexRevenueStakersAmt).1
                    + (k.CalculateRewardsForLPs ctx e.totalProxyTVL commitments
                      e.edenAmountPerEpochLPs e.gasFeesLPsAmt).1)
                  (k.CalculateRewardsForStakersByElysStaked ctx
                    (k.CalculateDelegatedAmount ctx commitments.Creator)
                    e.edenAmountPerEpochStakers e.dexRevenueStakersAmt).2.2).1.1)
          (k.CalculateEdenBoostRewards
            (k.GiveCommissionToValidators ctx commitments.Creator
              (k.CalculateDelegatedAmount ctx commitments.Creator)
              ((k.CalculateRewardsForStakersByCommitted ctx
                  (GetCommittedAmountForDenom commitments d.EdenB)
                  e.edenAmountPerEpochStakers e.dexRevenueStakersAmt).1
                + (k.CalculateRewardsForLPs ctx e.totalProxyTVL commitments
                  e.edenAmountPerEpochLPs e.gasFeesLPsAmt).1)
              (k.CalculateRewardsForStakersByElysStaked ctx
                (k.CalculateDelegatedAmount ctx commitments.Creator)
                e.edenAmountPerEpochStakers e.dexRevenueStakersAmt).2.2).2
            (k.CalculateDelegatedAmount ctx commitments.Creator) commitments epochIdentifier
            e.edenBoostAPR)
          ((k.CalculateRewardsForStakersByCommitted ctx
                (GetCommittedAmountForDenom commitments d.EdenB)
                e.edenAmountPerEpochStakers e.dexRevenueStakersAmt).2
              + (k.CalculateRewardsForLPs ctx e.totalProxyTVL commitments
                e.edenAmountPerEpochLPs e.gasFeesLPsAmt).2
              - (k.GiveCommissionToValidators ctx commitments.Creator
                  (k.CalculateDelegatedAmount ctx commitments.Creator)
                  ((k.CalculateRewardsForStakersByCommitted ctx
                      (GetCommittedAmountForDenom commitments d.EdenB)
                      e.edenAmountPerEpochStakers e.dexRevenueStakersAmt).1
                    + (k.CalculateRewardsForLPs ctx e.totalProxyTVL commitments
                      e.edenAmountPerEpochLPs e.gasFeesLPsAmt).1)
                  (k.CalculateRewardsForStakersByElysStaked ctx
                    (k.CalculateDelegatedAmount ctx commitments.Creator)
                    e.edenAmountPerEpochStakers e.dexRevenueStakersAmt).2.2).1.2) := by
  simp [commitmentCallback, hvalid]

/-- C23 at a concrete owner.  The owner `elys1owner` has a valid address and 7 Eden
uncommitted; the four rewards computed for the owner are 100 (Elys staked), 50 (Eden
committed), 30 (Eden Boost committed) and 20 (LP tokens), and the commission is 5.  After the
pass the owner has 52 Eden uncommitted, that is 45 = 30 + 20 - 5 more, not 195 more; with 1000
and 500 Eden per epoch for stakers and LPs, 180 and 20 are counted as given and 1300 goes to
the community pool, so that credited, commission and remainder make 1350, not 1500. -/
theorem updateUncommittedTokens_eden_credited :
    rewardKeeper.validAddress ownerCommitments.Creator = true ∧
    (rewardKeeper.CalculateRewardsForStakersByElysStaked [ownerCommitments] 1000 1000 0).1
      = 100 ∧
    (rewardKeeper.CalculateRewardsForStakersByCommitted [ownerCommitments]
      (GetCommittedAmountForDenom ownerCommitments "ueden") 1000 0).1 = 50 ∧
    (rewardKeeper.CalculateRewardsForStakersByCommitted [ownerCommitments]
      (GetCommittedAmountForDenom ownerCommitments "uedenb") 1000 0).1 = 30 ∧
    (rewardKeeper.CalculateRewardsForLPs [ownerCommitments] 0 ownerCommitments 500 0).1
      = 20 ∧
    (rewardKeeper.GiveCommissionToValidators [ownerCommitments] "elys1owner" 1000 50 10).1.1
      = 5 ∧
    uncommittedAmount ownerCommitments "ueden" = 7 ∧
    (iterateCommitments rewardKeeper sampleDenoms "day" sampleAmounts [ownerCommitments]
        [ownerCommitments]).2.map (fun c => uncommittedAmount c "ueden") = [52] ∧
    (iterateCommitments rewardKeeper sampleDenoms "day" sampleAmounts [ownerCommitments]
        [ownerCommitments]).1 = ⟨180, 20, 12, 2⟩ ∧
    edenRemainedAmount sampleAmounts
        (iterateCommitments rewardKeeper sampleDenoms "day" sampleAmounts [ownerCommitments]
          [ownerCommitments]).1 = 1300 := by
  refine ⟨?_, ?_, ?_, ?_, ?_, ?_, ?_, ?_, ?_, ?_⟩ <;> decide

end Incentive

/-! ## Claims on `CustomMessenger.DispatchMsg` -/

namespace Wasm

variable {σ β : Type}

/-- C21: `DispatchMsg` leaves what it does not handle to the wrapped messenger.  For a message
whose `Custom` payload is absent, and for one whose `Custom` payload decodes to an `ElysMsg`
with none of `MsgSwapExactAmountIn`, `MsgClose`, `MsgOpen`, `MsgStake`, `MsgUnstake` set, the
results and the state are exactly those of the wrapped messenger on the same arguments, which
is the only callee; when the payload decodes to an `ElysMsg` with a variant set, the wrapped
messenger is not called. -/
theorem dispatchMsg_delegates (m : CustomMessenger σ β) (ctx : σ) (contractAddr : String)
    (contractIBCPortID : String) (msg : CosmosMsg β) :
    (msg.Custom = none →
      (DispatchMsg m ctx contractAddr contractIBCPortID msg).result
        = (m.wrapped ctx contractAddr contractIBCPortID msg).1 ∧
      (DispatchMsg m ctx contractAddr contractIBCPortID msg).ctx
        = (m.wrapped ctx contractAddr contractIBCPortID msg).2 ∧
      (DispatchMsg m ctx contractAddr contractIBCPortID msg).calls = [Callee.wrapped]) ∧
    (∀ custom contractMsg, msg.Custom = some custom → m.Unmarshal custom = .ok contractMsg →
      contractMsg.MsgSwapExactAmountIn = none → contractMsg.MsgClose = none →
      contractMsg.MsgOpen = none → contractMsg.MsgStake = none →
      contractMsg.MsgUnstake = none →
      (DispatchMsg m ctx contractAddr contractIBCPortID msg).result
        = (m.wrapped ctx contractAddr contractIBCPortID msg).1 ∧
      (DispatchMsg m ctx contractAddr contractIBCPortID msg).ctx
        = (m.wrapped ctx contractAddr contractIBCPortID msg).2 ∧
      (DispatchMsg m ctx contractAddr contractIBCPortID msg).calls = [Callee.wrapped]) ∧
    (∀ custom contractMsg, msg.Custom = some custom → m.Unmarshal custom = .ok contractMsg →
      (contractMsg.MsgSwapExactAmountIn ≠ none ∨ contractMsg.MsgClose ≠ none ∨
        contractMsg.MsgOpen ≠ none ∨ contractMsg.MsgStake ≠ none ∨
        contractMsg.MsgUnstake ≠ none) →
      Callee.wrapped ∉ (DispatchMsg m ctx contractAddr contractIBCPortID msg).calls) := by
  refine ⟨?_, ?_, ?_⟩
  · intro hnone
    simp [DispatchMsg, hnone]
  · intro custom contractMsg hc hu h1 h2 h3 h4 h5
    simp [DispatchMsg, hc, hu, h1, h2, h3, h4, h5]
  · intro custom contractMsg hc hu hset
    unfold DispatchMsg
    simp only [hc, hu]
    cases h1 : contractMsg.MsgSwapExactAmountIn with
    | some x => simp
    | none =>
      cases h2 : contractMsg.MsgClose with
      | some x => simp
      | none =>
        cases h3 : contractMsg.MsgOpen with
        | some x => simp
        | none =>
          cases h4 : contractMsg.MsgStake with
          | some x => simp
          | none =>
            cases h5 : contractMsg.MsgUnstake with
            | some x => simp
            | none => simp [h1, h2, h3, h4, h5] at hset

/-- Witness of C21: a message without `Custom` payload and one whose payload decodes to no
variant go to the wrapped messenger; a close message goes to `msgClose` only. -/
theorem dispatchMsg_delegates_witness :
    (DispatchMsg sampleMessenger 0 "elys1contract" "" ⟨none, ()⟩).result
      = (sampleMessenger.wrapped 0 "elys1contract" "" ⟨none, ()⟩).1 ∧
    (DispatchMsg sampleMessenger 0 "elys1contract" "" ⟨some [1], ()⟩).result
      = (sampleMessenger.wrapped 0 "elys1contract" "" ⟨some [1], ()⟩).1 ∧
    Callee.wrapped ∉ (DispatchMsg sampleMessenger 0 "elys1contract" "" ⟨some [2], ()⟩).calls :=
  have h0 := dispatchMsg_delegates sampleMessenger 0 "elys1contract" "" ⟨none, ()⟩
  have h1 := dispatchMsg_delegates sampleMessenger 0 "elys1contract" "" ⟨some [1], ()⟩
  have h2 := dispatchMsg_delegates sampleMessenger 0 "elys1contract" "" ⟨some [2], ()⟩
  ⟨(h0.1 rfl).1, (h1.2.1 [1] emptyElysMsg rfl rfl rfl rfl rfl rfl rfl).1,
    h2.2.2 [2] { emptyElysMsg with MsgClose := some ⟨"elys1owner", 1, none⟩ } rfl rfl
      (Or.inr (Or.inl (by decide)))⟩

end Wasm

end Elys
